/-
Verification development for the MSA document-generation service (src/app.py).

The Python program is shallowly embedded:
  * the filesystem is an association list from paths to file data,
  * the Flask session is a structure holding exactly the keys the program uses,
  * external collaborators (the LibreOffice converter process, the auth API,
    `uuid.uuid4().hex`, `datetime.now()`) are oracles passed in as data,
  * fallible Python code becomes `Option` / `Except`,
  * `base64.b64decode` (non-strict, as called in `save_signature`) and
    `datetime.strptime(s, "%Y-%m-%d")` (the regex from CPython `_strptime`
    restricted to ASCII digits, plus the `datetime` range checks) are modelled
    bit-for-bit from their CPython semantics.

All definitions are computable; witnesses evaluate them on concrete inputs.
-/
import Mathlib

set_option maxHeartbeats 1000000
set_option linter.unusedVariables false

namespace MSA

/-! ## Association lists with Python-dict update semantics

Python dicts preserve insertion order; `d[k] = v` overwrites in place when the
key exists and appends otherwise.  We model the dicts of `app.py` (the Flask
session registries, content mappings, the simulated directory tree) as
association lists with exactly that update behaviour. -/

abbrev AList (α : Type) := List (String × α)

def alGet {α : Type} : AList α → String → Option α
  | [], _ => none
  | (k, v) :: t, key => if k = key then some v else alGet t key

def alUpdate {α : Type} : AList α → String → α → AList α
  | [], key, val => [(key, val)]
  | (k, v) :: t, key, val =>
      if k = key then (key, val) :: t else (k, v) :: alUpdate t key val

/-- Removal of a key (used to model `os.unlink`).  Defined as a filter: on
the duplicate-free association lists that model filesystem states this
coincides with deleting the unique entry. -/
def alErase {α : Type} (l : AList α) (key : String) : AList α :=
  l.filter (fun kv => !(kv.1 = key))

def alKeys {α : Type} (l : AList α) : List String := l.map Prod.fst

@[simp] theorem alGet_nil {α : Type} (k : String) : alGet ([] : AList α) k = none := rfl

@[simp] theorem alGet_update_self {α : Type} (l : AList α) (k : String) (v : α) :
    alGet (alUpdate l k v) k = some v := by
  induction l with
  | nil => simp [alGet, alUpdate]
  | cons h t ih =>
      obtain ⟨k', v'⟩ := h
      by_cases hk : k' = k <;> simp [alGet, alUpdate, hk, ih]

theorem alGet_update_ne {α : Type} (l : AList α) (k k' : String) (v : α) (h : k ≠ k') :
    alGet (alUpdate l k v) k' = alGet l k' := by
  induction l with
  | nil => simp [alGet, alUpdate, h]
  | cons hd t ih =>
      obtain ⟨k₀, v₀⟩ := hd
      by_cases hk : k₀ = k
      · subst hk; simp [alGet, alUpdate, h]
      · simp only [alUpdate, if_neg hk]
        by_cases hk' : k₀ = k' <;> simp [alGet, hk', ih]

theorem alKeys_update {α : Type} (l : AList α) (k : String) (v : α) :
    alKeys (alUpdate l k v) = if k ∈ alKeys l then alKeys l else alKeys l ++ [k] := by
  induction l with
  | nil => simp [alUpdate, alKeys]
  | cons hd t ih =>
      obtain ⟨k₀, v₀⟩ := hd
      by_cases hk : k₀ = k
      · subst hk; simp [alUpdate, alKeys]
      · have hne : ¬ k = k₀ := fun h => hk h.symm
        simp only [alUpdate, if_neg hk, alKeys, List.map_cons] at *
        rw [ih]
        by_cases hmem : k ∈ List.map Prod.fst t <;>
          simp [hmem, hne, List.mem_cons]

/-! ## Byte strings -/

abbrev Bytes := List Nat

/-! ## Python string helpers used by `app.py` -/

/-- `str.strip()` whitespace (the ASCII fragment: space, TAB, LF, VT, FF, CR). -/
def isPySpace (c : Char) : Bool :=
  c = ' ' || c = '\t' || c = '\n' || c.toNat = 11 || c.toNat = 12 || c = '\r'

/-- Python `str.strip()`. -/
def pyStrip (s : String) : String :=
  ⟨((s.data.dropWhile isPySpace).reverse.dropWhile isPySpace).reverse⟩

/-- One character of `html.escape(s, quote=True)`: `&`, `<`, `>`, `"`, `'`
are replaced by entities.  The five sequential `str.replace` calls in
`html.escape` act independently per input character, so a per-character map
is exact. -/
def escChar (c : Char) : List Char :=
  if c = '&' then "&amp;".data
  else if c = '<' then "&lt;".data
  else if c = '>' then "&gt;".data
  else if c = Char.ofNat 34 then "&quot;".data
  else if c = Char.ofNat 39 then "&#x27;".data
  else [c]

def htmlEscape (s : String) : String := ⟨s.data.flatMap escChar⟩

/-- `sanitize_input` (app.py:61-64): falsy input normalises to `""`,
otherwise strip then HTML-escape. -/
def sanitize_input (s : String) : String :=
  if s = "" then "" else htmlEscape (pyStrip s)

/-- `s.split(sep)` for a single-character separator (structural recursion so
that terms evaluate inside the kernel; `String.splitOn` does not). -/
def splitOnCharAux (sep : Char) : List Char → List Char → List (List Char)
  | [], cur => [cur.reverse]
  | c :: t, cur =>
      if c = sep then cur.reverse :: splitOnCharAux sep t []
      else splitOnCharAux sep t (c :: cur)

def pySplitChar (s : String) (sep : Char) : List String :=
  (splitOnCharAux sep s.data []).map (⟨·⟩)

def strStartsWith (s pre : String) : Bool := pre.data.isPrefixOf s.data

def strEndsWith (s suf : String) : Bool := suf.data.isSuffixOf s.data

def strContainsChar (s : String) (c : Char) : Bool := s.data.contains c

def strToLower (s : String) : String := ⟨s.data.map Char.toLower⟩

/-- Python `str.replace(pat, rep)` (all non-overlapping occurrences, left to
right), fuelled to keep the recursion structural.  The fuel `l.length`
suffices because every step consumes at least one character of a non-empty
pattern's match or of the scanned list. -/
def listReplaceF (pat rep : List Char) : Nat → List Char → List Char
  | _, [] => []
  | 0, l => l
  | fuel + 1, c :: t =>
      if pat.isPrefixOf (c :: t) then
        rep ++ listReplaceF pat rep fuel ((c :: t).drop pat.length)
      else c :: listReplaceF pat rep fuel t

def pyReplace (s pat rep : String) : String :=
  if pat = "" then s else ⟨listReplaceF pat.data rep.data s.data.length s.data⟩

example : pyReplace "MSA_a.docx_b.docx" ".docx" ".pdf" = "MSA_a.pdf_b.pdf" := rfl
example : pyReplace "a b c" " " "_" = "a_b_c" := rfl

/-- Python `str.title()` for the ASCII strings it is applied to
(`field.replace('_', ' ').title()`). -/
def pyTitleAux : List Char → Bool → List Char
  | [], _ => []
  | c :: t, prevAlpha =>
      (if c.isAlpha then (if prevAlpha then c.toLower else c.toUpper) else c)
        :: pyTitleAux t c.isAlpha

def pyTitle (s : String) : String := ⟨pyTitleAux s.data false⟩

/-- `filename.rsplit('.', 1)[1]`: the substring after the last dot
(meaningful only when the filename contains a dot). -/
def lastExt (s : String) : String := (pySplitChar s '.').getLastD ""

/-- `allowed_file` (app.py:51-52): the filename must contain a `.` and its
lowercased last extension must be in `{'png', 'jpg', 'jpeg'}`. -/
def allowed_file (filename : String) : Bool :=
  strContainsChar filename '.' &&
    ["png", "jpg", "jpeg"].contains (strToLower (lastExt filename))

/-! ## `base64.b64decode` (non-strict), as called by `save_signature`

`save_signature` calls `base64.b64decode(payload)` with `validate=False`.
CPython first encodes the `str` argument as ASCII (non-ASCII input raises),
then runs `binascii.a2b_base64` in non-strict mode: characters outside the
base64 alphabet are *discarded*; `=` terminates the parse once a quantum of
at least two data characters has accumulated enough padding; a leftover
quantum at the end of input is an error.  Modelled from CPython
`Modules/binascii.c` (`binascii_a2b_base64_impl`, `strict_mode=0`). -/

/-- Value of a base64 alphabet character, `none` for everything else. -/
def b64Val (c : Char) : Option Nat :=
  if 'A' ≤ c && c ≤ 'Z' then some (c.toNat - 65)
  else if 'a' ≤ c && c ≤ 'z' then some (c.toNat - 97 + 26)
  else if '0' ≤ c && c ≤ '9' then some (c.toNat - 48 + 52)
  else if c = '+' then some 62
  else if c = '/' then some 63
  else none

/-- The `a2b_base64` loop.  State: `quadPos` (position in the current
4-character quantum), `leftchar` (pending bits), `pads` (consecutive pad
count), `acc` (output bytes, reversed). -/
def a2bBase64 : List Char → Nat → Nat → Nat → Bytes → Except Unit Bytes
  | [], quadPos, _, _, acc =>
      if quadPos = 0 then .ok acc.reverse else .error ()
  | c :: rest, quadPos, leftchar, pads, acc =>
      if c = '=' then
        if 2 ≤ quadPos then
          if 4 ≤ quadPos + (pads + 1) then .ok acc.reverse
          else a2bBase64 rest quadPos leftchar (pads + 1) acc
        else a2bBase64 rest quadPos leftchar pads acc
      else
        match b64Val c with
        | none => a2bBase64 rest quadPos leftchar pads acc
        | some d =>
            match quadPos with
            | 0 => a2bBase64 rest 1 d 0 acc
            | 1 => a2bBase64 rest 2 (d % 16) 0 ((leftchar * 4 + d / 16) :: acc)
            | 2 => a2bBase64 rest 3 (d % 4) 0 ((leftchar * 16 + d / 4) :: acc)
            | _ => a2bBase64 rest 0 0 0 ((leftchar * 64 + d) :: acc)

/-- `base64.b64decode(s)` with `validate=False` on a `str` argument. -/
def pyB64Decode (s : String) : Except Unit Bytes :=
  if s.data.any (fun c => 128 ≤ c.toNat) then .error ()
  else a2bBase64 s.data 0 0 0 []

example : pyB64Decode "QUJD" = .ok [65, 66, 67] := rfl
example : pyB64Decode "abcd" = .ok [105, 183, 29] := rfl
example : pyB64Decode "ab==" = .ok [105] := rfl
example : pyB64Decode "a" = .error () := rfl
example : pyB64Decode "ab" = .error () := rfl
example : pyB64Decode "ab=" = .error () := rfl
example : pyB64Decode "$$$$" = .ok [] := rfl
example : pyB64Decode "a$bcd" = .ok [105, 183, 29] := rfl

/-! ## Storage layout (app.py:24-32)

The four storage directories.  `os.getcwd()` is abstracted away: paths are
relative to the working directory, and `os.path.join(d, f).replace('\\','/')`
becomes `d ++ "/" ++ f`. -/

def DOCX_DIR : String := "temp_docx"
def OUTPUT_DIR : String := "temp_pdf"
def SIGNATURE_DIR : String := "temp_signatures"
def EDIT_HISTORY_DIR : String := "edit_history"

def pjoin (d f : String) : String := d ++ "/" ++ f

/-! ## Data model

The filesystem stores either raw bytes, a serialized working document, or a
JSON edit-history array (`save_edit_history` reads such a file back with
`json.load`, so its parsed form is the natural file content; `json.load` on a
file of any other shape raises, which `save_edit_history` logs and swallows). -/

structure HistoryChanges where
  fields_updated : AList String
  chervicSig : Bool
  customerSig : Bool
deriving DecidableEq, Repr

structure HistoryEntry where
  timestamp : String
  username : String
  changes : HistoryChanges
deriving DecidableEq, Repr

inductive Align where
  | center
  | justify
deriving DecidableEq, Repr

/-- One cell of the two-column signature table: the run text plus the
embedded picture's file path (the image file is parsed by `python-docx`;
its pixel decoding is presentational and not modelled). -/
structure SigCell where
  text : String
  picturePath : String
deriving DecidableEq, Repr

inductive Block where
  | heading (level : Nat) (text : String) (align : Option Align)
  | para (text : String) (align : Option Align)
  | pageBreak
  | sigTable (customer : Option SigCell) (chervic : Option SigCell)
deriving DecidableEq, Repr

/-- The in-memory buffer returned by `create_document`: the document styles
set at app.py:126-136 plus the block sequence. -/
structure DocBuffer where
  fontName : String
  fontSizePt : Nat
  marginInches : Nat
  pageNumberFooter : Bool
  blocks : List Block
deriving DecidableEq, Repr

inductive FileData where
  | bytes (b : Bytes)
  | docx (d : DocBuffer)
  | history (h : List HistoryEntry)
deriving DecidableEq, Repr

abbrev FS := AList FileData

structure User where
  id : String
  username : String
  role : String
deriving DecidableEq, Repr

/-- The Flask session, restricted to the keys `app.py` reads or writes.
Every dict-valued key is read with `.get(k, {})` or written after
`setdefault(k, {})`, so a missing key and an empty dict are indistinguishable
and each is modelled as a plain association list.  `edit_history` is read by
`logout` (app.py:780) but never written anywhere in the program. -/
structure Session where
  user : Option User
  cookies : Option (AList String)
  signatures : AList String
  pdfs : AList String
  docxs : AList String
  edit_history : AList String
  form_data : AList String
  aribaNetworkId : Option String
deriving DecidableEq, Repr

def emptySession : Session :=
  { user := none, cookies := none, signatures := [], pdfs := [], docxs := [],
    edit_history := [], form_data := [], aribaNetworkId := none }

/-- Observable side effects, recorded so that claims about the *absence* of
file or process work ("no signature store call, no document assembly, no
converter invocation") can be stated. -/
inductive Effect where
  | sigSave (path : String)
  | assembleDoc
  | writeDocx (path : String)
  | invokeConverter (docxPath : String)
  | writeHistory (path : String)
  | unlinkFile (path : String)
deriving DecidableEq, Repr

/-- The world a request runs against: the filesystem, the session, the
stream of `uuid.uuid4().hex` values the process will draw, the
`datetime.now().isoformat()` reading, and the effect trace. -/
structure World where
  fs : FS
  sess : Session
  uuids : List String
  nowStr : String
  trace : List Effect
deriving DecidableEq, Repr

def popUuid (w : World) : String × World :=
  (w.uuids.headD "", { w with uuids := w.uuids.tail })

def addTrace (w : World) (e : Effect) : World :=
  { w with trace := w.trace ++ [e] }

/-! ## Signature store: `save_signature` (app.py:66-103) -/

structure FileUpload where
  filename : String
  contents : Bytes
deriving DecidableEq, Repr

/-- The two shapes of `save_signature`'s `data` argument.  In the source the
shape is announced by the `is_file` flag and the two always agree (both call
sites pass a `FileStorage` with `is_file=True` and a `str` with
`is_file=False`), so the flag is absorbed into the constructor. -/
inductive SigSource where
  | canvas (data : String)
  | upload (f : FileUpload)
deriving DecidableEq, Repr

/-- `data.split(',')[1]`: the segment between the first and the second
comma (the whole remainder when there is only one comma). -/
def splitIdx1 (d : String) : String := (pySplitChar d ',').getD 1 ""

/-- `save_signature(data, prefix, is_file)`.  Returns the generated filename
on success and `None` on any failure (all exceptions are caught at this
boundary).  The `prefix` parameter is renamed `pfx` (`prefix` is reserved in
Lean). -/
def save_signature (w : World) (data : SigSource) (pfx : String) :
    Option String × World :=
  let (uid, w) := popUuid w
  let filename := pfx ++ "_" ++ uid ++ ".png"
  let filepath := pjoin SIGNATURE_DIR filename
  let written : Option (Bytes × World) :=
    match data with
    | .upload f =>
        if allowed_file f.filename then
          some (f.contents,
            addTrace { w with fs := alUpdate w.fs filepath (.bytes f.contents) }
              (.sigSave filepath))
        else none
    | .canvas d =>
        if d = "" || !(strStartsWith d "data:image") then none
        else if !(strContainsChar d ',') then none
        else
          match pyB64Decode (splitIdx1 d) with
          | .error _ => none
          | .ok img =>
              some (img,
                addTrace { w with fs := alUpdate w.fs filepath (.bytes img) }
                  (.sigSave filepath))
  match written with
  | none => (none, w)
  | some (_, w') =>
      -- `if not os.path.exists(filepath): return None` — the file was just
      -- written, so the re-check passes; kept for fidelity.
      if (alGet w'.fs filepath).isNone then (none, w')
      else
        (some filename,
          { w' with sess :=
              { w'.sess with signatures := alUpdate w'.sess.signatures filename filepath } })

example :
    (save_signature ⟨[], emptySession, ["u1"], "", []⟩
      (.canvas "data:image/png;base64,QUJD") "customer").1 = some "customer_u1.png" := rfl
example :
    alGet (save_signature ⟨[], emptySession, ["u1"], "", []⟩
      (.canvas "data:image/png;base64,QUJD") "customer").2.fs
      "temp_signatures/customer_u1.png" = some (.bytes [65, 66, 67]) := rfl
example :
    (save_signature ⟨[], emptySession, ["u1"], "", []⟩
      (.canvas "data:image/png;base64,ab") "customer").1 = none := rfl
example :
    (save_signature ⟨[], emptySession, ["u1"], "", []⟩
      (.upload ⟨"sig.JPG", [9, 9]⟩) "chervic").1 = some "chervic_u1.png" := rfl
example :
    (save_signature ⟨[], emptySession, ["u1"], "", []⟩
      (.upload ⟨"sig.gif", [9, 9]⟩) "chervic").1 = none := rfl


/-! ## Document assembler: `create_document` (app.py:124-532)

The assembler is pure: it reads the filesystem only to check that the
signature-image paths named in the content mapping exist, and returns an
in-memory buffer.  Character formatting (font sizes of individual runs,
boldness) and the footer field codes of `add_page_number` are presentational
constants summarised by the `DocBuffer` style fields; the text, block order,
heading levels and paragraph alignments are transcribed verbatim from
app.py:156-504. -/

inductive DocErr where
  | sigFileNotFound (path : String)
deriving DecidableEq, Repr

/-- `content.get(k, dflt)`. -/
def cGet (content : AList String) (k dflt : String) : String :=
  (alGet content k).getD dflt

/-- The check loop at app.py:138-142: for each signature key **present** in
the content mapping (`sig_key in content`, truthiness not consulted), the
referenced path must exist on disk; the first violation raises
`FileNotFoundError`.  Returns the offending path of the first failing key,
if any. -/
def firstMissingSig (fs : FS) (content : AList String) : Option String :=
  (["customer_signature", "chervic_signature"].filterMap (fun k =>
      match alGet content k with
      | some p => if (alGet fs p).isNone then some p else none
      | none => none)).head?

/-- The field substitutions drawn from the content mapping
(app.py:144-154), bundled so the fixed block sequence can be split into
chunks (`msaBlocks1`-`msaBlocks6`) that elaborate quickly. -/
structure ContentFields where
  company_name : String
  start_date : String
  location_headquarters : String
  business_license_number : String
  billing_address : String
  billing_contact_name : String
  contact_person_designation : String
  contact_person_number : String
  contact_person_signature_date : String
  cas_signature_date : String
  billing_email : String
deriving DecidableEq, Repr

def msaBlocks1 (c : ContentFields) : List Block := [
      .heading 1 ("Master Services Agreement") (some .center),
      .heading 2 ("Between") (some .center),
      .heading 3 (c.company_name) (some .center),
      .para ("And") (some .center),
      .heading 3 ("Chervic Advisory Services Private Limited") (some .center),
      .pageBreak,
      .para ("THIS MASTER SERVICES AGREEMENT (the “Agreement”) is made and effective from " ++ c.start_date ++ " by & between:") (some .justify),
      .para (c.company_name ++ " is a company existing and operating in " ++ c.location_headquarters ++ ", having Business License Number " ++ c.business_license_number ++ ", with its place of business " ++ c.billing_address) (some .justify),
      .heading 1 ("And") (some .center),
      .para ("Chervic Advisory Services Private Limited established under laws governing India, with its registered office at Unit No. 7, Sigma Soft Tech Park, Gamma Block, Ground Floor, Whitefield, Bangalore – 560066, Karnataka, India.") (some .justify),
      .para ("Chervic Advisory Services Private Limited and " ++ c.company_name ++ " hereinafter referred to individually as a “Party” and collectively as the “Parties”.") (some .justify),
      .para ("The Company and Service Provider are hereinafter individually referred to as a 'Party' and collectively as 'Parties'. Capitalized terms used but not defined herein shall have the meaning ascribed to such terms in the Agreement.") (some .justify),
      .heading 2 ("Definitions") none,
      .para ("Under this Agreement:") (some .justify),
      .para ("1) “Affiliate” shall mean, with respect to any entity, any other entity that owns or controls, is owned or controlled by, or is under common ownership or control with such entity. The Parties acknowledge that Service Provider’s Affiliate may provide Services to Company. In such event, Company and the Service Provider’s Affiliate shall execute a separate SOW for Services. Company’s Affiliates may also obtain Services from Service Provider or Service Provider’s Affiliate under the terms of this Agreement by executing a separate SOW for Services. Such SOW shall be governed by terms and conditions as specified in Part B of this Agreement.") (some .justify),
      .para ("2) “Resource” would mean any resource person employed by the Service Provider for the performance of its obligation under this Agreement.") (some .justify),
      .para ("3) “Party” would mean either the Company or the Service Provider.") (some .justify),
      .heading 2 ("1. Scope") none,
      .para ("The Company shall engage the Service Provider for the provisions of certain services or deliverables (the “Services”) by issuance of statements of work under the terms of this Agreement (the “SOW”). The SOWs issued under this Agreement shall contain all relevant information such as the commercials, delivery date, scope of services etc.") (some .justify),
      .heading 2 ("2. Intellectual Property") none,
      .heading 3 ("2.1 The Service Provider will:") none
  ]

def msaBlocks2 (c : ContentFields) : List Block := [
      .para ("2.1.1 inform the Company of any matter which may come to its/Resource’s notice during the operation of this Agreement which may be of interest or importance or use to the Company; and") (some .justify),
      .para ("2.1.2 communicate to the Company any proposals or suggestions occurring to it during the operation of this Agreement which may be of service for the business of the Company.") (some .justify),
      .para ("2.2 However, Service Provider shall retain all right, title and interest in and to the Service Provider’s pre-existing IP, including all right, title and interest in any modifications, customizations, updates, upgrades, enhancements, alterations, made thereto, whether at the request of Company or otherwise, and feedback related thereto.") (some .justify),
      .para ("2.3 Any intellectual property (IP) that the Service Provider creates in the course of performing work under this Agreement, including the Statement of Work (SOW) — such as trademarks, copyrights, designs, or any other creative assets — shall remain the sole and exclusive property of the Service Provider. Such IP shall not be considered “work for hire” for the Company. The Company shall not acquire any ownership rights over any IP created by the Service Provider, whether during or after the term of this Agreement, unless otherwise expressly Agreed in writing.") (some .justify),
      .heading 2 ("3. Confidential Information") none,
      .heading 3 ("3.1 Definitions") none,
      .para ("“Confidential Information” means any and all information of any kind whatsoever disclosed by one party (Disclosing Party) or any of its Representatives to the other party (Receiving Party) or any of its Representatives prior to, or after, the date of this Agreement in whatever form including, but not limited to, information or discussions related to any business opportunities and any other information which may reasonably be considered as confidential information in the normal course of business of the disclosing Party including but not limited to processes, strategies, data, know-how, trade secrets, designs, reports, test results, drawings, specifications, technical literature and other information or material whether in oral, written, graphic or electromagnetic form (and including without limitation any notes, information or analyses derived from such information however it is produced);") (some .justify),
      .para ("“Representatives” means the directors, officers, employees and consultants of the Receiving Party and its associated companies together with any professional advisors of the Receiving Party which it consults in relation to pursuing business opportunities.") (some .justify),
      .heading 3 ("3.2 Obligations") none,
      .para ("Confidential Information disclosed by the Disclosing Party to the Receiving Party shall be treated as confidential and safeguarded by the Receiving Party in accordance with this Agreement for a period of 3 years from the date of this Agreement. The Receiving Party agrees with and undertakes to the Disclosing Party that it shall and shall procure that its Representatives shall for a period of 3 years from the date of this Agreement:") (some .justify),
      .para ("3.2.1 keep in strict confidence and in safe custody any Confidential Information disclosed to the Receiving Party by the Disclosing Party;") (some .justify),
      .para ("3.2.2 not use or exploit any Confidential Information other than in connection with pursuing business opportunities;") (some .justify),
      .para ("3.2.3 not copy or reproduce any or all of the Confidential Information except as is reasonably necessary in connection with the discussions on business opportunities;") (some .justify),
      .para ("3.2.4 promptly comply with any reasonable directions of the Disclosing Party which are given for the protection of the security of the Confidential Information;") (some .justify),
      .para ("3.2.5 except as may be required by any applicable law or regulation or the rules or requirements of any relevant stock exchange or relevant regulatory authority, not distribute, disclose or disseminate Confidential Information to anyone, except its Representatives who have a need to know such Confidential Information for the purpose of pursuing business opportunities; and") (some .justify),
      .para ("3.2.6 inform each such Representative of the restrictions as to confidentiality, use and disclosure of such Confidential Information contained in this Agreement and, to the extent that each such Representative is not already under an appropriate duty of confidentiality, impose upon each such Representative obligations of confidentiality at least equivalent to those set out in this Agreement.") (some .justify),
      .heading 3 ("3.3 Public Statements") none,
      .para ("Subject to Article 3.4.5 below, each Party hereby undertakes that it shall not (without the prior consent in writing of the other party) release any press statement or make any other announcement to any third party or make any public statement regarding the existence or content of this Agreement or the discussions contemplated by this Agreement or the identity of the Parties to such discussions.") (some .justify),
      .heading 3 ("3.4 Exceptions") none,
      .para ("The provisions of this Article shall not apply to Confidential Information which the Receiving Party can show to the Disclosing Party's reasonable satisfaction:") (some .justify),
      .para ("3.4.1 was known to the Receiving Party (without obligation to keep the same confidential) at the date of disclosure of the Confidential Information by the Disclosing Party;") (some .justify)
  ]

def msaBlocks3 (c : ContentFields) : List Block := [
      .para ("3.4.2 is after the date of disclosure acquired by the Receiving Party in good faith from an independent third party who is not subject to any obligation of confidentiality in respect of such Confidential Information;") (some .justify),
      .para ("3.4.3 in its entirety was at the time of its disclosure in the public knowledge or has become public knowledge during the term of this Agreement otherwise than by reason of the Receiving Party's neglect or breach of the restrictions set out in this Agreement or any agreement between the parties;") (some .justify),
      .para ("3.4.4 is independently developed by the Receiving Party without access to any or all of the Confidential Information; or") (some .justify),
      .para ("3.4.5 is required by law, judicial action, the rules or regulations of a recognized stock exchange, government department or agency or other regulatory authority to be disclosed in which event the Receiving Party shall take all reasonable steps to consult and take into account the reasonable requirements of the Disclosing Party in relation to such disclosure.") (some .justify),
      .para ("3.5 Upon the earlier of (i) the expiration or termination of this Agreement, or (ii) written request by the Disclosing Party, the Receiving Party shall, at the Disclosing Party’s option, promptly return or destroy all Confidential Information, including all copies thereof, in its possession or in the possession of its Representatives, whether in written, graphic, electronic, or any other form capable of return or destruction") (some .justify),
      .para ("Such return or destruction shall be completed within fifteen (15) days from the date of expiration, termination, or written request, as applicable. Upon completion, the Receiving Party shall, upon request, provide written certification confirming that all such Confidential Information has been returned or irretrievably destroyed.") (some .justify),
      .heading 2 ("4. Warranties") none,
      .para ("Each Party represents and warrants to the other Party that:") (some .justify),
      .para ("4.1 it has the legal capacity and has taken all necessary corporate action required to empower and authorise it to enter into this Agreement;") (some .justify),
      .para ("4.2 this Agreement constitutes valid, binding obligations enforceable against it in accordance with the terms of this Agreement;") (some .justify),
      .para ("4.3 all information provided by it to the other Party in relation to the provision and receipt of the Services under this Agreement is true to the best of its knowledge, information and belief;") (some .justify),
      .para ("4.4 the execution of this Agreement and the performance of its obligations hereunder does not and shall not:") (some .justify),
      .para ("4.4.1 contravene any applicable law;") (some .justify),
      .para ("4.4.2 contravene any provision of the Party’s constitutional documents;") (some .justify),
      .para ("4.4.3 conflict with, or constitute a breach of any of the provisions of any other agreement, obligation, restriction or undertaking which is binding on the Party; and") (some .justify),
      .para ("4.4.4 no fact or circumstance exists that may impair its ability to comply with all of its obligations in terms of this Agreement;") (some .justify),
      .para ("4.5 it is not insolvent or unable to pay its debts and has not stopped paying its debts as they fall due.") (some .justify),
      .para ("The warranties explicitly specified herein are in lieu of all other warranties of any kind, implied, statutory, or in any communication between them, including without limitation, the implied warranties of merchantability, non-infringement, title, and fitness for a particular purpose.") (some .justify),
      .heading 2 ("5. Commencement and Termination of Agreement") none,
      .heading 3 ("5.1 Commencement") none,
      .para ("When executed by both Parties, this Agreement comes into force on the date stated at the head of this Agreement (Effective Date).") (some .justify)
  ]

def msaBlocks4 (c : ContentFields) : List Block := [
      .heading 3 ("5.2 Termination") none,
      .para ("This Agreement shall remain in effect from the date hereof until the earliest to occur of the following:") (some .justify),
      .para ("5.2.1 Two (2) year from the (Effective Date) of this Agreement;") (some .justify),
      .para ("5.2.2 If either Party becomes insolvent or bankrupt, or assigns all or a substantial part of its business or assets for the benefit of its creditor(s), or seized by Receivership or Regulatory Authority, or permits the appointment of a receiver or a receiver and manager for its business or assets, or becomes subject to any judicial, administrative, quasi-Judicial or any other legal proceedings relating to the bankruptcy, insolvency, reorganization or the protection of creditors rights or otherwise ceases to conduct business in the normal course.") (some .justify),
      .para ("5.2.3 Either Party may terminate this Agreement by providing the other Party with no less than thirty (30) days’ prior written notice of its intention to terminate. Such termination shall be effective only upon mutual written agreement of the Parties") (some .justify),
      .para ("5.2.4 If the other Party is in default or commits a material breach of this Agreement (including failure to pay an undisputed amount due hereunder), provide that the aggrieved Party serves a 30-day written notice (a 'Rectification Notice') on the other Party and that Party fails to remedy the breach within that period.") (some .justify),
      .para ("5.2.5 Termination, completion or cancellation of the last remaining Proposal or Project that the Parties have agreed to pursue under this Agreement; or") (some .justify),
      .para ("5.2.6 Either party can terminate this agreement by serving a 90-day notice to other party.") (some .justify),
      .heading 2 ("6. Non-Hire and Non-Solicitation") none,
      .para ("Neither Party shall actively solicit any of each other’s employee, affiliate, associate, client or independent contractor during the term of the Proposal and for a period of two years following its expiry or earlier termination.") (some .justify),
      .heading 2 ("7. Limitation of Liability") none,
      .para ("In no event shall the Company be liable for any damages, including but not limited to loss of profits, cost of cover, or other incidental, consequential, or indirect damages, even if the Company has been advised of the possibility of such damages. Similarly, the Service Provider’s liability shall be limited to fees received under this Agreement and shall not include any indirect, incidental, or consequential damages. The Service Provider shall make reasonable efforts to deliver the services in alignment with the timelines, quality standards, and specifications set forth in the applicable Statement of Work (SOW). However, delays or deviations caused by events beyond the Service Provider’s reasonable control (e.g., force majeure events, delays in client dependencies, etc.) shall not constitute a breach of contract and shall not be subject to penalties or termination") (some .justify),
      .para ("Penalties for Non-Performance: In the event of a delay or failure in service delivery that is within the Service Provider’s control and is not remedied within ten (10) business days after written notice from the Company, the Service Provider shall be liable to pay a penalty of 0.5% of the total project value per week of delay, subject to a maximum cumulative penalty of 5% of the total project value") (some .justify),
      .heading 2 ("8. Indemnity") none,
      .para ("The Service Provider should indemnify and hold harmless the Company against any claims, damages, losses, or expenses arising from their negligence, misconduct, or breach of the Agreement.") (some .justify),
      .para ("Likewise, the Company shall indemnify and hold harmless the Service Provider (Chervic Advisory Services), its officers, employees, and affiliates from and against any claims, damages, losses, or expenses (including reasonable legal fees) arising out of or resulting from the Company’s (WMC’s) negligence, willful misconduct, or breach of this Agreement.") (some .justify),
      .heading 2 ("9. Security") none,
      .para ("The Service Provider shall make reasonable efforts to comply with the security-related policies and procedures of the Company’s clients, provided that such policies and procedures are communicated to the Service Provider in writing and in advance. In cases where the client does not have a defined security policy, the Service Provider agrees to follow the Company’s relevant security protocols, to the extent such protocols are reasonable, applicable, and have been clearly communicated in writing prior to the commencement of services.") (some .justify),
      .para ("The Service Provider shall not be held responsible for non-compliance with any security policy that was not disclosed in writing or that imposes unreasonable or commercially impractical requirements. Any additional compliance obligations outside the scope of this Agreement shall be subject to mutual agreement and may require an amendment to the terms, including potential adjustments in timelines, scope, or fees") (some .justify),
      .heading 2 ("10. Force Majeure") none,
      .heading 3 ("10.1 General") none
  ]

def msaBlocks5 (c : ContentFields) : List Block := [
      .para ("Neither Party will be liable for any delay in performing or for failing to perform their respective obligations to the extent that any such specific delay or failure is caused, directly or indirectly, by an event beyond the reasonable control of the either Party, as the case may be, including fire, flood, earthquake, pandemic, elements of nature, acts of war, terrorism, riots, civil disorders, rebellions or revolutions, change in government policies, strikes, lockouts or labour difficulties, such default or delay, collectively, a “Force Majeure Event”.") (some .justify),
      .heading 3 ("10.2 Notice and Suspension") none,
      .para ("If, as a result of a Force Majeure Event, it becomes impossible or impractical for any Party to carry out its obligations hereunder in whole or in part, then such obligations shall be suspended to the extent necessary by such Force Majeure Event during its continuance and during such time such Party will not be considered in default or contractual breach provided that the affected Party delivers to the non-affected Party as force majeure Notice.") (some .justify),
      .para ("10.2.1 The Party affected by such Force Majeure Event (the “Affected Party”) shall give prompt written notice to the other Party (the “Non-Affected Party”) of the nature and probable duration of such Force Majeure Event, the extent of its effects on Affected Party’s performance hereunder, and the steps being taken by the Affected Party to address and remove the Force Majeure Event as soon as reasonably practicable following the onset of the Force Majeure Event (the “Force Majeure Notice”). If the Force Majeure Notice is not delivered within 5 (five) Business Days of the initial occurrence of the Force Majeure Event, then the Force Majeure Event will not be deemed to have occurred until the date on which the Non-Affected Party receives the Force Majeure Notice.") (some .justify),
      .para ("10.2.2 The provision of “Force Majeure” aforesaid shall not be construed as relieving or waiver to either Party from its obligation under this contract to the other Party to the extent of the performed as well as reasonable performable part.") (some .justify),
      .para ("10.2.3 In the event that a Force Majeure Event persists for a period exceeding 30 days, the Non – Affected Party may terminate this Agreement and any SOW issued hereunder forthwith with prior notice to the Affected Party.") (some .justify),
      .para ("10.2.4 Notwithstanding anything stated in this Agreement, a Force Majeure Event shall not affect the liability of the Company to make payments to the Service Provider for Services that have already been rendered by the Service Provider.") (some .justify),
      .heading 2 ("11. Independent Service Provider") none,
      .para ("Service Provider will remain as an independent Service Provider in its relationship with Company. Nothing in this Agreement shall be deemed to have created a partnership, or joint venture or a contract of employment between Company and Service Provider.") (some .justify),
      .heading 2 ("12. Assignment") none,
      .para ("The Parties shall not assign, sub-license, mortgage, lien, charge, encumber or otherwise dispose of or transfer this Agreement or any of its rights or obligations under this Agreement without the prior written consent of the other. If either party assigns this Agreement to any third parties, such party shall remain the primary obligor and shall be jointly or severally liable for the performance of its obligations under this Agreement.") (some .justify),
      .heading 2 ("13. No Waiver") none,
      .para ("Failure or omission by either Party at any time to enforce or require strict or timely compliance with any provision of this Agreement will not affect or impair that provision, or the right of either Party to avail itself of the remedies it may have in respect of any breach of a provision, in any way. However, nothing agreed aforesaid will prevail over the governing laws.") (some .justify),
      .heading 2 ("14. Severability") none,
      .para ("Any provision of this Agreement that is or becomes illegal, void or unenforceable will be ineffective to the extent only of such illegality, voidness or unenforceability and will not invalidate the remaining provisions.") (some .justify),
      .heading 2 ("15. Variation") none,
      .para ("This Agreement may not be changed or modified in any way after it has been signed except in writing signed by or on behalf of all the Parties.") (some .justify),
      .heading 2 ("16. Governing Law and Dispute Resolution") none,
      .para ("16.1 This Agreement shall be governed by, subject to and construed in accordance with the laws of India.") (some .justify),
      .para ("16.2 Both parties recognise that occasion may arise when one of the parties may have cause for concern relating to the way in which the other party is meeting its obligations under the terms of this Agreement.") (some .justify),
      .para ("16.3 The parties shall each be under a general obligation to use all reasonable endeavours to negotiate in good faith and to settle amicably any dispute of whatever nature arising in connection with this Agreement.") (some .justify)
  ]

def msaBlocks6 (c : ContentFields) : List Block := [
      .para ("16.4 If a party considers that a dispute exists it shall notify the other party of the dispute in writing.") (some .justify),
      .para ("16.5 If after (30) calendar days from the date of raising a dispute notice, any party considers that, despite the good faith efforts of the parties, the dispute is not capable of being settled, the aggrieved party may refer the dispute to the competent court in India. The Indian courts, to the exclusion of all other courts, shall have the jurisdiction to finally settle such dispute.") (some .justify),
      .heading 2 ("17. Authority") none,
      .para ("Each party hereto represents and warrants that the person executing this Agreement on its behalf has express authority to do so, and in so doing, binds the parties hereto.") (some .justify),
      .heading 2 ("18. Enforcement") none,
      .para ("This Agreement is enforceable by the original parties to it and by their successors in title and permitted assignees.") (some .justify),
      .heading 2 ("19. Amendment and Extension") none,
      .para ("This Agreement may be amended, and the Term of this Agreement may be extended prior to its expiry only by an instrument in writing signed by duly authorised representative/s of each of the Parties.") (some .justify),
      .heading 2 ("20. Survival") none,
      .para ("The termination or expiry of this Agreement shall not affect the obligations of each Party with respect to the provisions as set forth in Articles 3 and 6.") (some .justify),
      .heading 2 ("21. Notices") none,
      .para ("All notices hereunder shall be given in writing by hand delivery, courier service, or email at the addresses set forth below:") (some .justify),
      .heading 3 ("If to " ++ c.company_name) none,
      .para (c.billing_contact_name ++ " \n " ++ c.contact_person_designation ++ "  \n" ++ c.company_name ++ "  \n " ++ c.billing_address ++ " \n " ++ c.contact_person_number ++ "  \nE-mail:" ++ c.billing_email) none,
      .heading 3 ("If to CHERVIC ADVISORY SERVICES PRIVATE LIMITED") none,
      .para ("Mr. Vasudevan  \nDirector  \nChervic Advisory Services Private Limited  \nUnit No.7 Sigma Soft Tech Park,  \nGamma Block, Ground Floor,  \nWhitefield, Bangalore – 560066,  \nKarnataka E-mail: accounts@chervic.in") none,
      .heading 2 ("22. Entire Agreement and Modification") none,
      .para ("22.1 This Agreement contains all terms, conditions and provisions hereof and the entire understandings and all representations of understandings and discussions of the Parties relating thereto. This Agreement supersedes and replaces any and all prior agreements and understandings between " ++ c.company_name ++ " and CHERVIC ADVISORY SERVICES PRIVATE LIMITED.") (some .justify),
      .para ("22.2 All terms and conditions included in this Agreement and its Schedule shall apply to any Project covered under this Agreement, unless mutually modified pursuant to the terms of a Project-Related Appendix.") (some .justify),
      .heading 2 ("IN WITNESS WHEREOF") none,
      .para ("The Parties have caused this Agreement to be signed by their duly authorised representatives and effective the date written first above.") (some .justify)
  ]

/-- The full fixed block sequence of the agreement (app.py:156-504). -/
def msaBlocks (c : ContentFields) : List Block :=
  msaBlocks1 c ++ msaBlocks2 c ++ msaBlocks3 c ++ msaBlocks4 c ++ msaBlocks5 c ++ msaBlocks6 c

def create_document (fs : FS) (content : AList String) : Except DocErr DocBuffer :=
  match firstMissingSig fs content with
  | some p => .error (.sigFileNotFound p)
  | none =>
    let c : ContentFields :=
      { company_name := cGet content "name" "Company Name"
        start_date := cGet content "start_date" "Start Date"
        location_headquarters := cGet content "headquartersLocation" "Location / Headquarters"
        business_license_number := cGet content "registrationNumber" "Business License Number"
        billing_address := cGet content "billingAddress" "Billing Address"
        billing_contact_name := cGet content "billing_contact_name" "Billing Contact Name"
        contact_person_designation := cGet content "contact_person_designation" "Contact person Designation"
        contact_person_number := cGet content "contact_person_number" "Contact person number"
        contact_person_signature_date := cGet content "contact_person_sign_date" "Contact person Signature Date"
        cas_signature_date := cGet content "chervic_date" "CAS Signature Date"
        billing_email := cGet content "billing_email" "Billing Email" }
    -- the two-column signature table (app.py:506-523); a side's cell is
    -- emitted only when its path is truthy (non-empty)
    let customerCell : Option SigCell :=
      match alGet content "customer_signature" with
      | some p =>
          if p = "" then none
          else some { text := c.company_name ++ "\n" ++ c.billing_contact_name ++
                        "\nDesignation: " ++ c.contact_person_designation ++
                        "\nDate " ++ c.contact_person_signature_date,
                      picturePath := p }
      | none => none
    let chervicCell : Option SigCell :=
      match alGet content "chervic_signature" with
      | some p =>
          if p = "" then none
          else some { text := "CHERVIC ADVISORY SERVICES PRIVATE LIMITED\nMr. Vasudevan\nDesignation: Director \nDate: " ++ c.cas_signature_date,
                      picturePath := p }
      | none => none
    .ok {
      fontName := "Times New Roman"
      fontSizePt := 12
      marginInches := 1
      pageNumberFooter := true
      blocks := msaBlocks c ++
        (if customerCell.isSome || chervicCell.isSome then
           [Block.sigTable customerCell chervicCell] else []) }


/-! ## `validate_date` (app.py:54-59)

`datetime.strptime(date_str, '%Y-%m-%d')` matches the CPython `_strptime`
regex `(?P<Y>\d\d\d\d)-(?P<m>1[0-2]|0[1-9]|[1-9])-(?P<d>3[01]|[12]\d|0[1-9]|[1-9])`
against the whole string (strptime rejects unconverted trailing data), then
builds `datetime(year, month, day)`, which checks `MINYEAR <= year <= MAXYEAR`
and `1 <= day <= days_in_month(year, month)`.  Any failure raises
`ValueError`, which `validate_date` catches, returning `False`.  Regex
alternatives are tried in order with backtracking into the continuation.
`\d` is modelled on ASCII digits. -/

def isD (c : Char) : Bool := '0' ≤ c && c ≤ '9'

def dVal (c : Char) : Nat := c.toNat - 48

/-- Candidates for `%m` = `1[0-2]|0[1-9]|[1-9]`, in regex order: each is a
month value together with the unconsumed remainder. -/
def monthCands : List Char → List (Nat × List Char)
  | c0 :: c1 :: rest =>
      (if c0 = '1' && ('0' ≤ c1 && c1 ≤ '2') then [(10 + dVal c1, rest)] else []) ++
      (if c0 = '0' && ('1' ≤ c1 && c1 ≤ '9') then [(dVal c1, rest)] else []) ++
      (if '1' ≤ c0 && c0 ≤ '9' then [(dVal c0, c1 :: rest)] else [])
  | [c0] => if '1' ≤ c0 && c0 ≤ '9' then [(dVal c0, [])] else []
  | [] => []

/-- Candidates for `%d` = `3[01]|[12]\d|0[1-9]|[1-9]`, in regex order. -/
def dayCands : List Char → List (Nat × List Char)
  | c0 :: c1 :: rest =>
      (if c0 = '3' && ('0' ≤ c1 && c1 ≤ '1') then [(30 + dVal c1, rest)] else []) ++
      (if ('1' ≤ c0 && c0 ≤ '2') && isD c1 then [(10 * dVal c0 + dVal c1, rest)] else []) ++
      (if c0 = '0' && ('1' ≤ c1 && c1 ≤ '9') then [(dVal c1, rest)] else []) ++
      (if '1' ≤ c0 && c0 ≤ '9' then [(dVal c0, c1 :: rest)] else [])
  | [c0] => if '1' ≤ c0 && c0 ≤ '9' then [(dVal c0, [])] else []
  | [] => []

/-- The day group is last, so its continuation is the end-of-input check. -/
def tryDay : List (Nat × List Char) → Option Nat
  | [] => none
  | (d, rest) :: t => if rest = [] then some d else tryDay t

/-- Try each month candidate; its continuation must consume a literal `-`
and then match a day alternative to the end of input (backtracking across
alternatives, as the regex engine does). -/
def tryMonth (y : Nat) : List (Nat × List Char) → Option (Nat × Nat × Nat)
  | [] => none
  | (m, rest) :: t =>
      match rest with
      | '-' :: rest2 =>
          match tryDay (dayCands rest2) with
          | some d => some (y, m, d)
          | none => tryMonth y t
      | _ => tryMonth y t

/-- Full-anchored match of the `%Y-%m-%d` pattern. -/
def strptimeYMD (cs : List Char) : Option (Nat × Nat × Nat) :=
  match cs with
  | a :: b :: c :: d :: e :: rest =>
      if isD a && isD b && isD c && isD d && e = '-' then
        tryMonth (((dVal a * 10 + dVal b) * 10 + dVal c) * 10 + dVal d) (monthCands rest)
      else none
  | _ => none

/-- Gregorian `days_in_month` as in CPython `datetime`. -/
def daysInMonth (y m : Nat) : Nat :=
  if m = 2 then
    if y % 4 = 0 && (y % 100 ≠ 0 || y % 400 = 0) then 29 else 28
  else if m = 4 || m = 6 || m = 9 || m = 11 then 30 else 31

/-- The range checks of the `datetime(year, month, day)` constructor
(`MINYEAR = 1`, `MAXYEAR = 9999`). -/
def datetimeValid (y m d : Nat) : Bool :=
  1 ≤ y && y ≤ 9999 && 1 ≤ m && m ≤ 12 && 1 ≤ d && d ≤ daysInMonth y m

def validate_date (date_str : String) : Bool :=
  match strptimeYMD date_str.data with
  | some (y, m, d) => datetimeValid y m d
  | none => false

example : validate_date "2024-01-01" = true := rfl
example : validate_date "2024-1-1" = true := rfl
example : validate_date "2024-12-31" = true := rfl
example : validate_date "24-01-01" = false := rfl
example : validate_date "2024/01/01" = false := rfl
example : validate_date "" = false := rfl
example : validate_date "2024-13-01" = false := rfl
example : validate_date "2024-02-30" = false := rfl
example : validate_date "2024-02-29" = true := rfl
example : validate_date "2023-02-29" = false := rfl
example : validate_date "0000-01-01" = false := rfl
example : validate_date "2024-01-011" = false := rfl
example : validate_date "2024-01-" = false := rfl
example : validate_date " 2024-01-01" = false := rfl

/-! ## Format converter: `generate_pdf` (app.py:534-585) -/

/-- Oracle describing what the external LibreOffice process does on one
invocation: whether it exits zero, whether it creates the expected output
file, and the bytes it writes there.  Captured stdout/stderr only feed log
and exception text and are not modelled. -/
structure Converter where
  exitZero : Bool
  createsOutput : Bool
  outputBytes : Bytes
deriving DecidableEq, Repr

inductive PdfErr where
  /-- `create_document` raised (called before the `try` block: no cleanup). -/
  | docErr (e : DocErr)
  /-- `content['name']` raised `KeyError` (also before anything is written). -/
  | keyErrorName
  /-- the converter process exited non-zero (`CalledProcessError`). -/
  | conversionFailed
  /-- the process exited zero but the expected output file does not exist. -/
  | pdfNotGenerated
deriving DecidableEq, Repr

def docxNameOf (nm uid : String) : String :=
  "MSA_" ++ pyReplace nm " " "_" ++ "_" ++ uid ++ ".docx"

def pdfNameOf (nm uid : String) : String :=
  pyReplace (docxNameOf nm uid) ".docx" ".pdf"

/-- `os.unlink(p)` guarded by `os.path.exists(p)`. -/
def unlinkIfExists (w : World) (p : String) : World :=
  if (alGet w.fs p).isSome then
    { w with fs := alErase w.fs p, trace := w.trace ++ [.unlinkFile p] }
  else w

/-- The `except` branch of app.py:579-585: best-effort deletion of the
working document and of the output file, then re-raise. -/
def pdfCleanup (w : World) (docxP pdfP : String) : World :=
  unlinkIfExists (unlinkIfExists w docxP) pdfP

def generate_pdf (conv : Converter) (w : World) (content : AList String) :
    Except PdfErr (String × FileData) × World :=
  let w := addTrace w .assembleDoc
  match create_document w.fs content with
  | .error e => (.error (.docErr e), w)
  | .ok buf =>
      match alGet content "name" with
      | none => (.error .keyErrorName, w)
      | some nm =>
          let (uid, w) := popUuid w
          let filename := docxNameOf nm uid
          let docx_filepath := pjoin DOCX_DIR filename
          let pdf_filename := pdfNameOf nm uid
          let pdf_filepath := pjoin OUTPUT_DIR pdf_filename
          let w := addTrace { w with fs := alUpdate w.fs docx_filepath (.docx buf) }
                     (.writeDocx docx_filepath)
          let w := addTrace w (.invokeConverter docx_filepath)
          let w := if conv.createsOutput then
                     { w with fs := alUpdate w.fs pdf_filepath (.bytes conv.outputBytes) }
                   else w
          if conv.exitZero then
            match alGet w.fs pdf_filepath with
            | some fd =>
                let w := { w with sess :=
                  { w.sess with
                      pdfs := alUpdate w.sess.pdfs pdf_filename pdf_filepath,
                      docxs := alUpdate w.sess.docxs pdf_filename docx_filepath } }
                (.ok (pdf_filename, fd), w)
            | none => (.error .pdfNotGenerated, pdfCleanup w docx_filepath pdf_filepath)
          else (.error .conversionFailed, pdfCleanup w docx_filepath pdf_filepath)

/-! ## Edit history: `save_edit_history` (app.py:587-604) -/

def save_edit_history (w : World) (pdf_filename username : String)
    (changes : HistoryChanges) : World :=
  let history_file := pjoin EDIT_HISTORY_DIR (pdf_filename ++ "_history.json")
  let entry : HistoryEntry := { timestamp := w.nowStr, username := username, changes := changes }
  match alGet w.fs history_file with
  | none =>
      addTrace { w with fs := alUpdate w.fs history_file (.history [entry]) }
        (.writeHistory history_file)
  | some (.history h) =>
      addTrace { w with fs := alUpdate w.fs history_file (.history (h ++ [entry])) }
        (.writeHistory history_file)
  | some _ =>
      -- `json.load` raises on a non-JSON file; the handler logs and swallows,
      -- so nothing is written.
      w

/-! ## Auth gateway client: `login_user` (app.py:609-639) -/

/-- The JSON object returned by `GET /auth/role` (fields `fetch_user_info`'s
caller reads). -/
structure RoleInfo where
  userRole : Option String
  id : Option String
  userId : Option String
deriving DecidableEq, Repr

/-- The `user` object inside the login response. -/
structure PyUser where
  id : Option String
  userId : Option String
  username : Option String
deriving DecidableEq, Repr

/-- Oracle for the two auth API calls a login makes: whether
`POST /auth/login` succeeds (`raise_for_status`), its `user` payload and
cookies, and whether/what `GET /auth/role` returns. -/
structure AuthOracle where
  loginOk : Bool
  loginUser : Option PyUser
  loginCookies : AList String
  roleOk : Bool
  roleInfo : RoleInfo
deriving DecidableEq, Repr

/-- Python `a or b` on two `.get` results (`None` and `""` are falsy). -/
def pyOr (a b : Option String) : Option String :=
  match a with
  | some s => if s = "" then b else some s
  | none => b

/-- Normalise a falsy final result (`if not user_id`). -/
def truthyOpt (a : Option String) : Option String :=
  match a with
  | some s => if s = "" then none else some s
  | none => none

/-- `login_user(username, password)`.  Every failure raises
`AuthenticationError` (modelled as `.error ()`); on success the session
gains the user identity and the login cookies. -/
def login_user (o : AuthOracle) (w : World) (username password : String) :
    Except Unit Unit × World :=
  if !o.loginOk then (.error (), w)
  else if !o.roleOk then (.error (), w)
  else
    match o.roleInfo.userRole with
    | some r =>
        if r ≠ "BUSINESS_DEVELOPMENT_USER" then (.error (), w)
        else
          let user_data_id := o.loginUser.bind (·.id)
          let user_data_userId := o.loginUser.bind (·.userId)
          let uid := truthyOpt (pyOr (pyOr (pyOr user_data_id user_data_userId)
                       o.roleInfo.id) o.roleInfo.userId)
          match uid with
          | none => (.error (), w)
          | some i =>
              let u : User :=
                { id := i,
                  username := (o.loginUser.bind (·.username)).getD username,
                  role := r }
              (.ok (),
                { w with sess :=
                  { w.sess with user := some u, cookies := some o.loginCookies } })
    | none =>
        -- `user_role` is `None`: `None != 'BUSINESS_DEVELOPMENT_USER'` holds,
        -- so the login is rejected.
        (.error (), w)

/-! ## HTTP responses (flash messages folded into the constructors) -/

inductive Resp where
  | redirectLogin
  | renderIndexErr (msg : String)
  | redirectView (filename : String)
deriving DecidableEq, Repr

/-! ## Teardown: `logout` (app.py:751-805) -/

def rmtreeDir (w : World) (d : String) : World :=
  { w with fs := w.fs.filter (fun kv => !(strStartsWith kv.1 (d ++ "/"))) }

def logout (w : World) : Resp × World :=
  -- per-record best-effort deletes, kind by kind (pdfs, docxs, signatures,
  -- edit-history logs); `session['pdfs'][filename]` on the iterated keys is
  -- the entry's own value
  let w := w.sess.pdfs.foldl (fun acc kv => unlinkIfExists acc kv.2) w
  let w := w.sess.docxs.foldl (fun acc kv => unlinkIfExists acc kv.2) w
  let w := w.sess.signatures.foldl (fun acc kv => unlinkIfExists acc kv.2) w
  let w := w.sess.edit_history.foldl
    (fun acc kv => unlinkIfExists acc (pjoin EDIT_HISTORY_DIR (kv.1 ++ "_history.json"))) w
  -- `shutil.rmtree` on the four storage directories
  let w := rmtreeDir w DOCX_DIR
  let w := rmtreeDir w OUTPUT_DIR
  let w := rmtreeDir w SIGNATURE_DIR
  let w := rmtreeDir w EDIT_HISTORY_DIR
  -- `session.clear()`
  (.redirectLogin, { w with sess := emptySession })

/-! ## Artifact lookups: `download_pdf` / `download_docx` (app.py:953-995)

`filepath = session.get(kind, {}).get(filename)`; a falsy path or a path
that no longer exists on disk is NotFound (`none`). -/

def pdfLookup (w : World) (filename : String) : Option String :=
  match alGet w.sess.pdfs filename with
  | none => none
  | some fp => if fp = "" then none else if (alGet w.fs fp).isSome then some fp else none

def docxLookup (w : World) (filename : String) : Option String :=
  match alGet w.sess.docxs filename with
  | none => none
  | some fp => if fp = "" then none else if (alGet w.fs fp).isSome then some fp else none


/-! ## Submission handler: `generate_nda` (app.py:864-951)

Inputs: the POSTed form fields (`request.form`), the uploaded files
(`request.files`), the converter oracle, and the world.  Output: the
rendered/redirect response plus the new world.

Two modelling notes.  (1) `data = session.get('form_data', {})` aliases the
session's nested dict in CPython; mutations to `data` before the final
`session['form_data'] = data` assignment are visible in the in-memory
session object but are not tracked by Flask (`session.modified` stays
unset for them).  The model treats `data` as a local value written back at
the explicit assignment, which is the cookie-persisted behaviour; no claim
depends on the aliased intermediate states.  (2) the flash message for a
`generate_pdf` failure interpolates `str(e)`; the model keeps the fixed
prefix only. -/

def required_fields : List String :=
  ["name", "websiteUrl", "registrationNumber", "headquartersLocation",
   "countriesOfOperation", "businessType", "industryType", "billingAddress",
   "billing_contact_name", "billing_email", "start_date",
   "contact_person_designation", "contact_person_number", "chervic_date",
   "contact_person_sign_date"]

def date_fields : List String := ["start_date", "chervic_date", "contact_person_sign_date"]

def optional_fields : List String :=
  ["chervic_name", "chervic_title", "customer_sign_name", "customer_sign_title",
   "agreement_date"]

/-- `request.form.get(field, '')`. -/
def formGet (form : AList String) (f : String) : String := (alGet form f).getD ""

/-- `f"{field.replace('_', ' ').title()} is required."` -/
def requiredMsg (f : String) : String := pyTitle (pyReplace f "_" " ") ++ " is required."

/-- `f"Invalid date format for {field.replace('_', ' ').title()}. Use YYYY-MM-DD."` -/
def badDateMsg (f : String) : String :=
  "Invalid date format for " ++ pyTitle (pyReplace f "_" " ") ++ ". Use YYYY-MM-DD."

def generate_nda_finish (conv : Converter) (u : User) (w : World)
    (data : AList String) : Resp × World :=
  match generate_pdf conv { w with sess := { w.sess with form_data := data } } data with
  | (.ok (pdf_filename, _buf), w2) =>
      let changes : HistoryChanges :=
        { fields_updated :=
            data.filter (fun kv => (required_fields ++ optional_fields).contains kv.1),
          chervicSig := cGet data "chervic_signature" "" ≠ "",
          customerSig := cGet data "customer_signature" "" ≠ "" }
      (Resp.redirectView pdf_filename, save_edit_history w2 pdf_filename u.username changes)
  | (.error _, w2) => (Resp.renderIndexErr "Error generating Agreement: ", w2)

/-- The customer-signature upload branch (`elif customer_signature_file and
allowed_file(...)`, app.py:923-932). -/
def customerFileBranch (conv : Converter) (files : AList FileUpload) (u : User)
    (w : World) (data : AList String) : Resp × World :=
  match alGet files "contact_person_signature" with
  | some f =>
      if f.filename ≠ "" && allowed_file f.filename then
        match save_signature w (.upload f) "customer" with
        | (some fn, w) =>
            generate_nda_finish conv u w (alUpdate data "customer_signature"
              ((alGet w.sess.signatures fn).getD ""))
        | (none, w) =>
            (Resp.renderIndexErr "Failed to process Customer file signature.", w)
      else (Resp.renderIndexErr "Customer signature is required.", w)
  | none => (Resp.renderIndexErr "Customer signature is required.", w)

/-- Customer-signature processing (app.py:914-932). -/
def customerStep (conv : Converter) (form : AList String) (files : AList FileUpload)
    (u : User) (w : World) (data : AList String) : Resp × World :=
  match alGet form "contact_person_signature_data" with
  | some s =>
      if s ≠ "" && strStartsWith s "data:image" then
        match save_signature w (.canvas s) "customer" with
        | (some fn, w) =>
            generate_nda_finish conv u w (alUpdate data "customer_signature"
              ((alGet w.sess.signatures fn).getD ""))
        | (none, w) =>
            (Resp.renderIndexErr "Failed to process Customer canvas signature.", w)
      else customerFileBranch conv files u w data
  | none => customerFileBranch conv files u w data

/-- The chervic-signature upload branch (app.py:904-913). -/
def chervicFileBranch (conv : Converter) (form : AList String)
    (files : AList FileUpload) (u : User) (w : World) (data : AList String) :
    Resp × World :=
  match alGet files "chervic_signature" with
  | some f =>
      if f.filename ≠ "" && allowed_file f.filename then
        match save_signature w (.upload f) "chervic" with
        | (some fn, w) =>
            customerStep conv form files u w (alUpdate data "chervic_signature"
              ((alGet w.sess.signatures fn).getD ""))
        | (none, w) =>
            (Resp.renderIndexErr "Failed to process Chervic file signature.", w)
      else (Resp.renderIndexErr "Chervic signature is required.", w)
  | none => (Resp.renderIndexErr "Chervic signature is required.", w)

/-- Chervic-signature processing (app.py:895-913). -/
def chervicStep (conv : Converter) (form : AList String) (files : AList FileUpload)
    (u : User) (w : World) (data : AList String) : Resp × World :=
  match alGet form "chervic_signature_data" with
  | some s =>
      if s ≠ "" && strStartsWith s "data:image" then
        match save_signature w (.canvas s) "chervic" with
        | (some fn, w) =>
            customerStep conv form files u w (alUpdate data "chervic_signature"
              ((alGet w.sess.signatures fn).getD ""))
        | (none, w) =>
            (Resp.renderIndexErr "Failed to process Chervic canvas signature.", w)
      else chervicFileBranch conv form files u w data
  | none => chervicFileBranch conv form files u w data

def generate_nda (conv : Converter) (w : World) (form : AList String)
    (files : AList FileUpload) : Resp × World :=
  match w.sess.user with
  | none => (.redirectLogin, w)
  | some u =>
    let data := w.sess.form_data
    -- required-field loop (app.py:877-882): the first missing/all-whitespace
    -- field aborts; otherwise every field is stripped, sanitized, stored
    match required_fields.find? (fun f => pyStrip (formGet form f) = "") with
    | some f => (.renderIndexErr (requiredMsg f), w)
    | none =>
      let data := required_fields.foldl
        (fun d f => alUpdate d f (sanitize_input (pyStrip (formGet form f)))) data
      -- date-format loop (app.py:883-887)
      match date_fields.find? (fun f => !(validate_date (cGet data f ""))) with
      | some f => (.renderIndexErr (badDateMsg f), w)
      | none =>
        let data := optional_fields.foldl
          (fun d f => alUpdate d f (sanitize_input (formGet form f))) data
        -- aribaNetworkId (app.py:891-894)
        let ariba := sanitize_input ((alGet form "aribaNetworkId").getD
                       (w.sess.aribaNetworkId.getD ""))
        let data := alUpdate data "aribaNetworkId" ariba
        let w := if ariba ≠ "" then
                   { w with sess := { w.sess with aribaNetworkId := some ariba } }
                 else w
        chervicStep conv form files u w data


/-! ## Auxiliary definitions used by the statements -/

def isOkE {ε α : Type} : Except ε α → Bool
  | .ok _ => true
  | .error _ => false

/-- A step of the application: one request-handler invocation (or the
harness refreshing the oracle streams between requests).  `indexForm`
models the `index` route writing `session['form_data']`; `setAriba` the
`fetch_domain_data` route writing `session['aribaNetworkId']`. -/
inductive AppStep : World → World → Prop where
  | login (w : World) (o : AuthOracle) (un pw : String) :
      AppStep w (login_user o w un pw).2
  | submit (w : World) (conv : Converter) (form : AList String)
      (files : AList FileUpload) :
      AppStep w (generate_nda conv w form files).2
  | teardown (w : World) : AppStep w (logout w).2
  | indexForm (w : World) (d : AList String) :
      AppStep w { w with sess := { w.sess with form_data := d } }
  | setAriba (w : World) (a : String) :
      AppStep w { w with sess := { w.sess with aribaNetworkId := some a } }
  | freshOracles (w : World) (us : List String) (now : String) :
      AppStep w { w with uuids := us, nowStr := now }

/-- Worlds the application can reach: a fresh session (the state after the
server starts serving a new browser session) followed by any number of
request steps. -/
inductive ReachableW : World → Prop where
  | init (fs : FS) (us : List String) (now : String) :
      ReachableW { fs := fs, sess := emptySession, uuids := us, nowStr := now, trace := [] }
  | step {w w' : World} : ReachableW w → AppStep w w' → ReachableW w'

/-! ## Concrete worlds for witnesses -/

def uTest : User := { id := "17", username := "bd", role := "BUSINESS_DEVELOPMENT_USER" }

def wTest : World :=
  { fs := [], sess := emptySession, uuids := ["u1", "u2", "u3"], nowStr := "t0", trace := [] }

def wAuth : World :=
  { fs := [], sess := { emptySession with user := some uTest },
    uuids := ["u1", "u2", "u3"], nowStr := "t0", trace := [] }

/-! ## Basic lemmas about the embedding -/

@[simp] theorem addTrace_sess (w : World) (e : Effect) : (addTrace w e).sess = w.sess := rfl

@[simp] theorem addTrace_fs (w : World) (e : Effect) : (addTrace w e).fs = w.fs := rfl

@[simp] theorem unlinkIfExists_sess (w : World) (p : String) :
    (unlinkIfExists w p).sess = w.sess := by
  unfold unlinkIfExists; split <;> rfl

@[simp] theorem rmtreeDir_sess (w : World) (d : String) :
    (rmtreeDir w d).sess = w.sess := rfl

theorem alGet_erase_self {α : Type} (l : AList α) (k : String) :
    alGet (alErase l k) k = none := by
  induction l with
  | nil => rfl
  | cons hd t ih =>
      obtain ⟨k₀, v₀⟩ := hd
      by_cases hk : k₀ = k <;> simp [alErase, List.filter, alGet, hk] <;>
        simpa [alErase] using ih

theorem alGet_filter_none {α : Type} (l : AList α) (q : String × α → Bool) (p : String)
    (h : alGet l p = none) : alGet (l.filter q) p = none := by
  induction l with
  | nil => rfl
  | cons hd t ih =>
      obtain ⟨k₀, v₀⟩ := hd
      by_cases hk : k₀ = p
      · simp [alGet, hk] at h
      · simp only [alGet, if_neg hk] at h
        by_cases hq : q (k₀, v₀) <;> simp [List.filter, hq, alGet, hk, ih h]

theorem alGet_filter_out {α : Type} (l : AList α) (pre p : String)
    (h : strStartsWith p pre = true) :
    alGet (l.filter (fun kv => !(strStartsWith kv.1 pre))) p = none := by
  induction l with
  | nil => rfl
  | cons hd t ih =>
      obtain ⟨k₀, v₀⟩ := hd
      by_cases hk : k₀ = p
      · subst hk; simp [List.filter, h, alGet, ih]
      · by_cases hq : strStartsWith k₀ pre <;>
          simp [List.filter, hq, alGet, hk, ih]


theorem strData_append (a b : String) : (a ++ b).data = a.data ++ b.data := by
  cases a; cases b; rfl

theorem isPrefixOf_self_append (l m : List Char) : l.isPrefixOf (l ++ m) = true := by
  induction l with
  | nil => simp [List.isPrefixOf]
  | cons c t ih => simp [List.isPrefixOf, ih]

theorem strEndsWith_append (a b : String) : strEndsWith (a ++ b) b = true := by
  simp only [strEndsWith, List.isSuffixOf, strData_append, List.reverse_append]
  exact isPrefixOf_self_append _ _

/-! ## Claims -/

/-- C2 (counterexample): the claim asserts `save_signature` returns a
Failure for *every* data-URI whose post-comma portion contains characters
outside the base64 alphabet.  On `"data:image/png;base64,$$"` every
post-comma character is outside the alphabet, yet the store *succeeds*
(non-strict `b64decode` discards the invalid characters, decodes the empty
quantum to `b""`, and an empty signature file is written and registered). -/
theorem claim_C2_counterexample :
    (∀ c ∈ ("$$" : String).data, b64Val c = none) ∧
    (save_signature wTest (.canvas "data:image/png;base64,$$") "customer").1 =
      some "customer_u1.png" ∧
    alGet (save_signature wTest (.canvas "data:image/png;base64,$$") "customer").2.sess.signatures
      "customer_u1.png" = some "temp_signatures/customer_u1.png" := by
  refine ⟨by decide, rfl, rfl⟩

/-- C2 (amended): for every inline data-URI input whose portion between the
first and second comma fails Python's (non-strict) base64 decode — after
discarding non-alphabet characters, a dangling quantum or non-ASCII input —
`save_signature` returns `None`, no exception escapes, the filesystem is
untouched, no signature is registered, and no effect is performed.  Mere
presence of non-alphabet characters after the comma is *not* sufficient for
failure, since the decoder discards them. -/
theorem claim_C2 (w : World) (d pfx : String)
    (hstart : strStartsWith d "data:image" = true)
    (hdec : pyB64Decode (splitIdx1 d) = .error ()) :
    (save_signature w (.canvas d) pfx).1 = none ∧
    (save_signature w (.canvas d) pfx).2.fs = w.fs ∧
    (save_signature w (.canvas d) pfx).2.sess = w.sess ∧
    (save_signature w (.canvas d) pfx).2.trace = w.trace := by
  unfold save_signature popUuid
  by_cases h1 : (decide (d = "") || !strStartsWith d "data:image") = true
  · simp [h1]
  · by_cases h2 : (!strContainsChar d ',') = true
    · simp [h1, h2]
    · simp [h1, h2, hdec]

/-- C2 (witness): `"data:image/png;base64,a"` has a one-character quantum,
which the decoder rejects. -/
theorem claim_C2_witness :
    (save_signature wTest (.canvas "data:image/png;base64,a") "customer").1 = none ∧
    (save_signature wTest (.canvas "data:image/png;base64,a") "customer").2.fs = wTest.fs ∧
    (save_signature wTest (.canvas "data:image/png;base64,a") "customer").2.sess = wTest.sess ∧
    (save_signature wTest (.canvas "data:image/png;base64,a") "customer").2.trace = wTest.trace :=
  claim_C2 wTest "data:image/png;base64,a" "customer" rfl rfl

/-- C6 (counterexample): the claim treats *everything after the first comma*
as the payload, "including payloads that themselves contain a comma".  The
code instead decodes `data.split(',')[1]` — the segment *between* the first
and second commas.  For `"data:image/png;base64,abcd,QUJD"` the substring
after the first comma is `"abcd,QUJD"` (decodable: the comma is discarded,
giving six bytes), but the stored file holds only the three bytes of
`"abcd"`. -/
theorem claim_C6_counterexample :
    ("data:image/png;base64" ++ "," ++ "abcd,QUJD" : String) =
      "data:image/png;base64,abcd,QUJD" ∧
    strContainsChar "data:image/png;base64" ',' = false ∧
    splitIdx1 "data:image/png;base64,abcd,QUJD" = "abcd" ∧
    alGet (save_signature wTest (.canvas "data:image/png;base64,abcd,QUJD") "customer").2.fs
      "temp_signatures/customer_u1.png" = some (.bytes [105, 183, 29]) ∧
    pyB64Decode "abcd,QUJD" = .ok [105, 183, 29, 65, 66, 67] ∧
    ([105, 183, 29] : Bytes) ≠ [105, 183, 29, 65, 66, 67] := by
  refine ⟨rfl, rfl, rfl, rfl, rfl, by decide⟩

/-- C6 (amended): the payload is `data.split(',')[1]`, the substring between
the first and second commas (equal to the substring after the first comma
whenever the payload itself contains no comma); when that payload decodes,
the stored signature file's bytes are exactly its base64 decoding
(round-trip), and the generated filename is returned. -/
theorem claim_C6 (w : World) (d pfx payload : String) (bs : Bytes)
    (hstart : strStartsWith d "data:image" = true)
    (hcomma : strContainsChar d ',' = true)
    (hpay : splitIdx1 d = payload)
    (hdec : pyB64Decode payload = .ok bs) :
    (save_signature w (.canvas d) pfx).1 =
      some (pfx ++ "_" ++ w.uuids.headD "" ++ ".png") ∧
    alGet (save_signature w (.canvas d) pfx).2.fs
      (pjoin SIGNATURE_DIR (pfx ++ "_" ++ w.uuids.headD "" ++ ".png")) =
      some (.bytes bs) := by
  have hne : d ≠ "" := by
    intro h; subst h; exact absurd hstart (by decide)
  have h1 : (decide (d = "") || !strStartsWith d "data:image") = false := by
    simp [hne, hstart]
  have h2 : (!strContainsChar d ',') = false := by simp [hcomma]
  unfold save_signature popUuid
  simp [h1, h2, hpay, hdec, alGet_update_self]

/-- C6 (witness): storing `"data:image/png;base64,QUJD"` writes the bytes
`b"ABC"`. -/
theorem claim_C6_witness :
    (save_signature wTest (.canvas "data:image/png;base64,QUJD") "customer").1 =
      some ("customer" ++ "_" ++ wTest.uuids.headD "" ++ ".png") ∧
    alGet (save_signature wTest (.canvas "data:image/png;base64,QUJD") "customer").2.fs
      (pjoin SIGNATURE_DIR ("customer" ++ "_" ++ wTest.uuids.headD "" ++ ".png")) =
      some (.bytes [65, 66, 67]) :=
  claim_C6 wTest "data:image/png;base64,QUJD" "customer" "QUJD" [65, 66, 67] rfl rfl rfl rfl

/-- C9: every stored signature file is named `<prefix>_<uuid>.png`
regardless of the input's actual type: an uploaded `.jpg`/`.jpeg` file
passes the allow-list, is saved under a generated `.png` name, and its
bytes are stored unchanged. -/
theorem claim_C9 (w : World) (pfx : String) (f : FileUpload)
    (hdot : strContainsChar f.filename '.' = true)
    (hext : strToLower (lastExt f.filename) = "jpg" ∨
            strToLower (lastExt f.filename) = "jpeg") :
    allowed_file f.filename = true ∧
    (save_signature w (.upload f) pfx).1 =
      some (pfx ++ "_" ++ w.uuids.headD "" ++ ".png") ∧
    strEndsWith (pfx ++ "_" ++ w.uuids.headD "" ++ ".png") ".png" = true ∧
    alGet (save_signature w (.upload f) pfx).2.fs
      (pjoin SIGNATURE_DIR (pfx ++ "_" ++ w.uuids.headD "" ++ ".png")) =
      some (.bytes f.contents) := by
  have hall : allowed_file f.filename = true := by
    rcases hext with h | h <;> simp [allowed_file, hdot, h]
  refine ⟨hall, ?_, ?_, ?_⟩
  · unfold save_signature popUuid
    simp [hall, alGet_update_self]
  · exact strEndsWith_append (pfx ++ "_" ++ w.uuids.headD "") ".png"
  · unfold save_signature popUuid
    simp [hall, alGet_update_self]

/-- C9 (witness): an uploaded `sig.jpg` with bytes `[1, 2, 3]`. -/
theorem claim_C9_witness :
    allowed_file "sig.jpg" = true ∧
    (save_signature wTest (.upload ⟨"sig.jpg", [1, 2, 3]⟩) "chervic").1 =
      some ("chervic" ++ "_" ++ wTest.uuids.headD "" ++ ".png") ∧
    strEndsWith ("chervic" ++ "_" ++ wTest.uuids.headD "" ++ ".png") ".png" = true ∧
    alGet (save_signature wTest (.upload ⟨"sig.jpg", [1, 2, 3]⟩) "chervic").2.fs
      (pjoin SIGNATURE_DIR ("chervic" ++ "_" ++ wTest.uuids.headD "" ++ ".png")) =
      some (.bytes [1, 2, 3]) :=
  claim_C9 wTest "chervic" ⟨"sig.jpg", [1, 2, 3]⟩ rfl (Or.inl rfl)


/-- C5: if either signature key (`customer_signature` or
`chervic_signature`) is present in the content mapping but the referenced
file does not exist, `create_document` fails with a signature-file-not-found
error naming a present-but-missing signature path; no buffer (partial or
otherwise) is returned. -/
theorem claim_C5 (fs : FS) (content : AList String) (k p : String)
    (hk : k = "customer_signature" ∨ k = "chervic_signature")
    (hget : alGet content k = some p)
    (hmiss : alGet fs p = none) :
    ∃ q, alGet fs q = none ∧
      (alGet content "customer_signature" = some q ∨
       alGet content "chervic_signature" = some q) ∧
      create_document fs content = .error (.sigFileNotFound q) := by
  have hfm : ∃ q, alGet fs q = none ∧
      (alGet content "customer_signature" = some q ∨
       alGet content "chervic_signature" = some q) ∧
      firstMissingSig fs content = some q := by
    rcases hk with hk | hk
    · subst hk
      refine ⟨p, hmiss, Or.inl hget, ?_⟩
      simp [firstMissingSig, hget, hmiss]
    · subst hk
      rcases hc : alGet content "customer_signature" with _ | pc
      · exact ⟨p, hmiss, Or.inr hget, by simp [firstMissingSig, hc, hget, hmiss]⟩
      · rcases hfs : alGet fs pc with _ | v
        · exact ⟨pc, hfs, Or.inl rfl, by simp [firstMissingSig, hc, hfs]⟩
        · exact ⟨p, hmiss, Or.inr hget, by simp [firstMissingSig, hc, hfs, hget, hmiss]⟩
  obtain ⟨q, hq1, hq2, hq3⟩ := hfm
  exact ⟨q, hq1, hq2, by unfold create_document; rw [hq3]⟩

/-- C5 (witness): a mapping whose `customer_signature` names a file absent
from an empty filesystem. -/
theorem claim_C5_witness :
    ∃ q, alGet ([] : FS) q = none ∧
      (alGet [("customer_signature", "temp_signatures/x.png")] "customer_signature" = some q ∨
       alGet [("customer_signature", "temp_signatures/x.png")] "chervic_signature" = some q) ∧
      create_document [] [("customer_signature", "temp_signatures/x.png")] =
        .error (.sigFileNotFound q) :=
  claim_C5 [] [("customer_signature", "temp_signatures/x.png")]
    "customer_signature" "temp_signatures/x.png" (Or.inl rfl) rfl rfl

/-- C7: when the credential check passes but the fetched role is not
`BUSINESS_DEVELOPMENT_USER`, `login_user` raises `AuthenticationError` and
the session is untouched — in particular `session['user']` is never set on
this path. -/
theorem claim_C7 (o : AuthOracle) (w : World) (username password : String)
    (hok : o.loginOk = true) (hrok : o.roleOk = true)
    (hrole : o.roleInfo.userRole ≠ some "BUSINESS_DEVELOPMENT_USER") :
    (login_user o w username password).1 = .error () ∧
    (login_user o w username password).2 = w ∧
    (login_user o w username password).2.sess.user = w.sess.user := by
  unfold login_user
  rcases hr : o.roleInfo.userRole with _ | r
  · simp [hok, hrok, hr]
  · have hne : r ≠ "BUSINESS_DEVELOPMENT_USER" := by
      intro h; exact hrole (by rw [hr, h])
    simp [hok, hrok, hr, hne]

/-- C7 (witness): a correct credential with role `"ADMIN"`. -/
theorem claim_C7_witness :
    (login_user ⟨true, some ⟨some "1", none, some "bd"⟩, [("sid", "c0")], true,
        ⟨some "ADMIN", some "1", none⟩⟩ wTest "bd" "pw").1 = .error () ∧
    (login_user ⟨true, some ⟨some "1", none, some "bd"⟩, [("sid", "c0")], true,
        ⟨some "ADMIN", some "1", none⟩⟩ wTest "bd" "pw").2 = wTest ∧
    (login_user ⟨true, some ⟨some "1", none, some "bd"⟩, [("sid", "c0")], true,
        ⟨some "ADMIN", some "1", none⟩⟩ wTest "bd" "pw").2.sess.user = wTest.sess.user :=
  claim_C7 ⟨true, some ⟨some "1", none, some "bd"⟩, [("sid", "c0")], true,
    ⟨some "ADMIN", some "1", none⟩⟩ wTest "bd" "pw" rfl rfl (by decide)


theorem alGet_filter_keep {α : Type} (l : AList α) (q : String × α → Bool) (k' : String)
    (hq : ∀ v, q (k', v) = true) : alGet (l.filter q) k' = alGet l k' := by
  induction l with
  | nil => rfl
  | cons hd t ih =>
      obtain ⟨k₀, v₀⟩ := hd
      rw [List.filter_cons]
      by_cases hk : k₀ = k'
      · subst hk
        simp [hq v₀, alGet]
      · by_cases hq0 : q (k₀, v₀) <;> simp [hq0, alGet, hk, ih]

theorem alGet_erase_ne {α : Type} (l : AList α) (k k' : String) (h : k' ≠ k) :
    alGet (alErase l k) k' = alGet l k' := by
  unfold alErase
  exact alGet_filter_keep l _ k' (fun v => by simp [h])

/-- Output paths (under `temp_pdf/`) and working-document paths (under
`temp_docx/`) never coincide. -/
theorem pdfPath_ne_docxPath (x y : String) : pjoin OUTPUT_DIR x ≠ pjoin DOCX_DIR y := by
  intro h
  have h2 : (OUTPUT_DIR ++ "/" ++ x).data = (DOCX_DIR ++ "/" ++ y).data :=
    congrArg String.data h
  rw [strData_append, strData_append] at h2
  have h3 : (['t','e','m','p','_','p','d','f','/'] : List Char) ++ x.data =
      ['t','e','m','p','_','d','o','c','x','/'] ++ y.data := h2
  simp [List.cons_append] at h3

/-- C1: given that document assembly succeeds, the content mapping has a
company name, and the expected output path is fresh, `generate_pdf`
succeeds *iff* the converter process exits zero AND the expected output
file exists (was created); and when the process exits non-zero, the
conversion Failure propagates, the already-written working `.docx` file is
deleted (as is any output file), and neither the `pdfs` nor the `docxs`
session registry gains an entry. -/
theorem claim_C1 (conv : Converter) (w : World) (content : AList String) (nm : String)
    (hname : alGet content "name" = some nm)
    (hdoc : isOkE (create_document w.fs content) = true)
    (hfresh : alGet w.fs (pjoin OUTPUT_DIR (pdfNameOf nm (w.uuids.headD ""))) = none) :
    (isOkE (generate_pdf conv w content).1 = true ↔
      (conv.exitZero = true ∧ conv.createsOutput = true)) ∧
    (conv.exitZero = false →
      (generate_pdf conv w content).1 = .error .conversionFailed ∧
      alGet (generate_pdf conv w content).2.fs
        (pjoin DOCX_DIR (docxNameOf nm (w.uuids.headD ""))) = none ∧
      alGet (generate_pdf conv w content).2.fs
        (pjoin OUTPUT_DIR (pdfNameOf nm (w.uuids.headD ""))) = none ∧
      (generate_pdf conv w content).2.sess.pdfs = w.sess.pdfs ∧
      (generate_pdf conv w content).2.sess.docxs = w.sess.docxs) := by
  obtain ⟨buf, hbuf⟩ : ∃ buf, create_document w.fs content = .ok buf := by
    cases h : create_document w.fs content with
    | ok b => exact ⟨b, rfl⟩
    | error e => rw [h] at hdoc; simp [isOkE] at hdoc
  have hdd : pjoin OUTPUT_DIR (pdfNameOf nm (w.uuids.headD "")) ≠
      pjoin DOCX_DIR (docxNameOf nm (w.uuids.headD "")) := pdfPath_ne_docxPath _ _
  have hdd' : pjoin DOCX_DIR (docxNameOf nm (w.uuids.headD "")) ≠
      pjoin OUTPUT_DIR (pdfNameOf nm (w.uuids.headD "")) := fun h => hdd h.symm
  have he : w.uuids.headD "" = w.uuids.head?.getD "" := by cases w.uuids <;> rfl
  rw [he] at hdd hdd' hfresh ⊢
  cases hex : conv.exitZero <;> cases hco : conv.createsOutput <;>
    simp [generate_pdf, addTrace, popUuid, pdfCleanup, unlinkIfExists, hbuf, hname,
      hex, hco, isOkE, alGet_update_self, alGet_update_ne, alGet_erase_self,
      alGet_erase_ne, hdd, hdd', hfresh]

def contentW : AList String := [("name", "Acme Pty")]

def convFail : Converter := { exitZero := false, createsOutput := false, outputBytes := [] }

/-- C1 (witness): a converter oracle that exits non-zero against an empty
filesystem. -/
theorem claim_C1_witness :
    (isOkE (generate_pdf convFail wAuth contentW).1 = true ↔
      (convFail.exitZero = true ∧ convFail.createsOutput = true)) ∧
    (convFail.exitZero = false →
      (generate_pdf convFail wAuth contentW).1 = .error .conversionFailed ∧
      alGet (generate_pdf convFail wAuth contentW).2.fs
        (pjoin DOCX_DIR (docxNameOf "Acme Pty" (wAuth.uuids.headD ""))) = none ∧
      alGet (generate_pdf convFail wAuth contentW).2.fs
        (pjoin OUTPUT_DIR (pdfNameOf "Acme Pty" (wAuth.uuids.headD ""))) = none ∧
      (generate_pdf convFail wAuth contentW).2.sess.pdfs = wAuth.sess.pdfs ∧
      (generate_pdf convFail wAuth contentW).2.sess.docxs = wAuth.sess.docxs) :=
  claim_C1 convFail wAuth contentW "Acme Pty" rfl rfl rfl


/-- C4: a submission (by a logged-in user) with some required field missing
or all-whitespace is rejected with a user-facing error naming a blank
required field, and the world is completely unchanged: no signature store
call, no document assembly, no file write, no converter invocation, no
session mutation (fail-fast, no partial side effects). -/
theorem claim_C4 (conv : Converter) (w : World) (form : AList String)
    (files : AList FileUpload) (u : User) (f : String)
    (huser : w.sess.user = some u)
    (hf : f ∈ required_fields)
    (hblank : pyStrip (formGet form f) = "") :
    ∃ g, g ∈ required_fields ∧ pyStrip (formGet form g) = "" ∧
      generate_nda conv w form files = (.renderIndexErr (requiredMsg g), w) := by
  cases hfind : required_fields.find? (fun x => pyStrip (formGet form x) = "") with
  | none =>
      exfalso
      exact absurd (by simpa using hblank)
        (by simpa using List.find?_eq_none.mp hfind f hf)
  | some g =>
      refine ⟨g, List.mem_of_find?_eq_some hfind, ?_, ?_⟩
      · simpa using List.find?_some hfind
      · simp [generate_nda, huser, hfind]

/-- C4 (witness): an empty form (every required field blank). -/
theorem claim_C4_witness :
    ∃ g, g ∈ required_fields ∧ pyStrip (formGet ([] : AList String) g) = "" ∧
      generate_nda convFail wAuth [] [] = (.renderIndexErr (requiredMsg g), wAuth) :=
  claim_C4 convFail wAuth [] [] uTest "name" rfl (by decide) rfl

/-- C8: teardown deletes the per-record files, then removes all four
storage directories entirely, then clears the session.  Afterwards the
session is empty, every path under any of the four storage directories is
gone, and every artifact or signature lookup returns NotFound. -/
theorem claim_C8 (w : World) :
    (logout w).2.sess = emptySession ∧
    (∀ p, (strStartsWith p (DOCX_DIR ++ "/") = true ∨
           strStartsWith p (OUTPUT_DIR ++ "/") = true ∨
           strStartsWith p (SIGNATURE_DIR ++ "/") = true ∨
           strStartsWith p (EDIT_HISTORY_DIR ++ "/") = true) →
        alGet (logout w).2.fs p = none) ∧
    (∀ fn, pdfLookup (logout w).2 fn = none) ∧
    (∀ fn, docxLookup (logout w).2 fn = none) ∧
    (∀ fn, alGet (logout w).2.sess.signatures fn = none) := by
  refine ⟨by simp [logout], ?_, ?_, ?_, ?_⟩
  · intro p hp
    simp only [logout, rmtreeDir]
    rcases hp with h | h | h | h
    · exact alGet_filter_none _ _ _ (alGet_filter_none _ _ _
        (alGet_filter_none _ _ _ (alGet_filter_out _ _ _ h)))
    · exact alGet_filter_none _ _ _ (alGet_filter_none _ _ _ (alGet_filter_out _ _ _ h))
    · exact alGet_filter_none _ _ _ (alGet_filter_out _ _ _ h)
    · exact alGet_filter_out _ _ _ h
  · intro fn; simp [pdfLookup, logout, emptySession]
  · intro fn; simp [docxLookup, logout, emptySession]
  · intro fn; simp [logout, emptySession]

def sessFull : Session :=
  { emptySession with
    user := some uTest,
    pdfs := [("a.pdf", "temp_pdf/a.pdf")],
    docxs := [("a.pdf", "temp_docx/a.docx")],
    signatures := [("customer_s.png", "temp_signatures/customer_s.png")] }

def wFull : World :=
  { fs := [("temp_pdf/a.pdf", .bytes [1]), ("temp_docx/a.docx", .bytes [2]),
           ("temp_signatures/customer_s.png", .bytes [3]),
           ("edit_history/a.pdf_history.json", .history [])],
    sess := sessFull,
    uuids := [], nowStr := "t0", trace := [] }

/-- C8 (witness): a session owning one artifact, one signature and one
history log; after teardown every lookup misses and the files are gone. -/
theorem claim_C8_witness :
    alGet (logout wFull).2.fs "temp_docx/a.docx" = none ∧
    alGet (logout wFull).2.fs "edit_history/a.pdf_history.json" = none ∧
    pdfLookup (logout wFull).2 "a.pdf" = none ∧
    docxLookup (logout wFull).2 "a.pdf" = none ∧
    alGet (logout wFull).2.sess.signatures "customer_s.png" = none :=
  ⟨(claim_C8 wFull).2.1 "temp_docx/a.docx" (Or.inl (by decide)),
   (claim_C8 wFull).2.1 "edit_history/a.pdf_history.json" (Or.inr (Or.inr (Or.inr (by decide)))),
   (claim_C8 wFull).2.2.1 "a.pdf",
   (claim_C8 wFull).2.2.2.1 "a.pdf",
   (claim_C8 wFull).2.2.2.2 "customer_s.png"⟩


/-! ## The pdf/docx registry alignment invariant (C10) -/

def pdfsDocxsAligned (w : World) : Prop :=
  alKeys w.sess.pdfs = alKeys w.sess.docxs

/-- `save_signature` can change only the `signatures` component of the
session. -/
theorem save_signature_sess (w : World) (d : SigSource) (pfx : String) :
    ∃ sigs, (save_signature w d pfx).2.sess = { w.sess with signatures := sigs } := by
  unfold save_signature popUuid addTrace
  rcases d with s | f
  · by_cases h1 : (decide (s = "") || !strStartsWith s "data:image") = true
    · exact ⟨w.sess.signatures, by simp [h1]⟩
    · by_cases h2 : (!strContainsChar s ',') = true
      · exact ⟨w.sess.signatures, by simp [h1, h2]⟩
      · rcases hb : pyB64Decode (splitIdx1 s) with e | img
        · exact ⟨w.sess.signatures, by simp [h1, h2, hb]⟩
        · refine ⟨alUpdate w.sess.signatures (pfx ++ "_" ++ w.uuids.headD "" ++ ".png")
            (pjoin SIGNATURE_DIR (pfx ++ "_" ++ w.uuids.headD "" ++ ".png")), ?_⟩
          simp [h1, h2, hb, alGet_update_self]
  · by_cases ha : allowed_file f.filename = true
    · refine ⟨alUpdate w.sess.signatures (pfx ++ "_" ++ w.uuids.headD "" ++ ".png")
        (pjoin SIGNATURE_DIR (pfx ++ "_" ++ w.uuids.headD "" ++ ".png")), ?_⟩
      simp [ha, alGet_update_self]
    · exact ⟨w.sess.signatures, by simp [ha]⟩

theorem save_signature_pdfs (w : World) (d : SigSource) (pfx : String) :
    (save_signature w d pfx).2.sess.pdfs = w.sess.pdfs := by
  obtain ⟨s, hs⟩ := save_signature_sess w d pfx
  rw [hs]

theorem save_signature_docxs (w : World) (d : SigSource) (pfx : String) :
    (save_signature w d pfx).2.sess.docxs = w.sess.docxs := by
  obtain ⟨s, hs⟩ := save_signature_sess w d pfx
  rw [hs]

theorem save_edit_history_sess (w : World) (a b : String) (c : HistoryChanges) :
    (save_edit_history w a b c).sess = w.sess := by
  unfold save_edit_history addTrace
  rcases h : alGet w.fs (pjoin EDIT_HISTORY_DIR (a ++ "_history.json")) with _ | fd
  · simp [h]
  · rcases fd <;> simp [h]

theorem generate_pdf_aligned (conv : Converter) (w : World) (content : AList String)
    (h : pdfsDocxsAligned w) : pdfsDocxsAligned (generate_pdf conv w content).2 := by
  unfold pdfsDocxsAligned at *
  unfold generate_pdf popUuid addTrace pdfCleanup unlinkIfExists
  rcases hcd : create_document w.fs content with e | buf <;> try simp only [hcd]
  · exact h
  · rcases hn : alGet content "name" with _ | nm <;> try simp only [hn]
    · exact h
    · cases hex : conv.exitZero <;> cases hco : conv.createsOutput <;>
        (try simp only [hex, hco, if_true, if_false]) <;>
        repeat' split <;>
        simp_all [alKeys_update]

theorem generate_nda_finish_aligned (conv : Converter) (u : User) (w : World)
    (data : AList String) (h : pdfsDocxsAligned w) :
    pdfsDocxsAligned (generate_nda_finish conv u w data).2 := by
  have h' : pdfsDocxsAligned { w with sess := { w.sess with form_data := data } } := h
  rcases hgp : generate_pdf conv { w with sess := { w.sess with form_data := data } } data
    with ⟨r, w2⟩
  have hk : pdfsDocxsAligned w2 := by
    have hx := generate_pdf_aligned conv { w with sess := { w.sess with form_data := data } }
      data h'
    rw [hgp] at hx; exact hx
  unfold generate_nda_finish
  simp only [hgp]
  rcases r with e | ⟨fn, buf⟩
  · exact hk
  · simpa [pdfsDocxsAligned, save_edit_history_sess] using hk

theorem customerFileBranch_aligned (conv : Converter) (files : AList FileUpload)
    (u : User) (w : World) (data : AList String) (h : pdfsDocxsAligned w) :
    pdfsDocxsAligned (customerFileBranch conv files u w data).2 := by
  unfold customerFileBranch
  rcases hf : alGet files "contact_person_signature" with _ | f
  · exact h
  · simp only []
    by_cases hc : (decide (f.filename ≠ "") && allowed_file f.filename) = true
    · rw [if_pos hc]
      rcases hs : save_signature w (.upload f) "customer" with ⟨r, w2⟩
      have hk : pdfsDocxsAligned w2 := by
        have h1 : pdfsDocxsAligned (save_signature w (.upload f) "customer").2 := by
          unfold pdfsDocxsAligned
          rw [save_signature_pdfs, save_signature_docxs]; exact h
        rw [hs] at h1
        exact h1
      rcases r with _ | fn
      · exact hk
      · exact generate_nda_finish_aligned conv u w2 _ hk
    · rw [if_neg hc]
      exact h

theorem customerStep_aligned (conv : Converter) (form : AList String)
    (files : AList FileUpload) (u : User) (w : World) (data : AList String)
    (h : pdfsDocxsAligned w) :
    pdfsDocxsAligned (customerStep conv form files u w data).2 := by
  unfold customerStep
  rcases hf : alGet form "contact_person_signature_data" with _ | f
  · exact customerFileBranch_aligned conv files u w data h
  · simp only []
    by_cases hc : (decide (f ≠ "") && strStartsWith f "data:image") = true
    · rw [if_pos hc]
      rcases hs : save_signature w (.canvas f) "customer" with ⟨r, w2⟩
      have hk : pdfsDocxsAligned w2 := by
        have h1 : pdfsDocxsAligned (save_signature w (.canvas f) "customer").2 := by
          unfold pdfsDocxsAligned
          rw [save_signature_pdfs, save_signature_docxs]; exact h
        rw [hs] at h1
        exact h1
      rcases r with _ | fn
      · exact hk
      · exact generate_nda_finish_aligned conv u w2 _ hk
    · rw [if_neg hc]
      exact customerFileBranch_aligned conv files u w data h

theorem chervicFileBranch_aligned (conv : Converter) (form : AList String)
    (files : AList FileUpload) (u : User) (w : World) (data : AList String)
    (h : pdfsDocxsAligned w) :
    pdfsDocxsAligned (chervicFileBranch conv form files u w data).2 := by
  unfold chervicFileBranch
  rcases hf : alGet files "chervic_signature" with _ | f
  · exact h
  · simp only []
    by_cases hc : (decide (f.filename ≠ "") && allowed_file f.filename) = true
    · rw [if_pos hc]
      rcases hs : save_signature w (.upload f) "chervic" with ⟨r, w2⟩
      have hk : pdfsDocxsAligned w2 := by
        have h1 : pdfsDocxsAligned (save_signature w (.upload f) "chervic").2 := by
          unfold pdfsDocxsAligned
          rw [save_signature_pdfs, save_signature_docxs]; exact h
        rw [hs] at h1
        exact h1
      rcases r with _ | fn
      · exact hk
      · exact customerStep_aligned conv form files u w2 _ hk
    · rw [if_neg hc]
      exact h

theorem chervicStep_aligned (conv : Converter) (form : AList String)
    (files : AList FileUpload) (u : User) (w : World) (data : AList String)
    (h : pdfsDocxsAligned w) :
    pdfsDocxsAligned (chervicStep conv form files u w data).2 := by
  unfold chervicStep
  rcases hf : alGet form "chervic_signature_data" with _ | f
  · exact chervicFileBranch_aligned conv form files u w data h
  · simp only []
    by_cases hc : (decide (f ≠ "") && strStartsWith f "data:image") = true
    · rw [if_pos hc]
      rcases hs : save_signature w (.canvas f) "chervic" with ⟨r, w2⟩
      have hk : pdfsDocxsAligned w2 := by
        have h1 : pdfsDocxsAligned (save_signature w (.canvas f) "chervic").2 := by
          unfold pdfsDocxsAligned
          rw [save_signature_pdfs, save_signature_docxs]; exact h
        rw [hs] at h1
        exact h1
      rcases r with _ | fn
      · exact hk
      · exact customerStep_aligned conv form files u w2 _ hk
    · rw [if_neg hc]
      exact chervicFileBranch_aligned conv form files u w data h

theorem generate_nda_aligned (conv : Converter) (w : World) (form : AList String)
    (files : AList FileUpload) (h : pdfsDocxsAligned w) :
    pdfsDocxsAligned (generate_nda conv w form files).2 := by
  unfold generate_nda
  rcases w.sess.user with _ | u
  · exact h
  · simp only []
    split
    · exact h
    · split
      · exact h
      · split
        · exact chervicStep_aligned conv form files u _ _ h
        · exact chervicStep_aligned conv form files u _ _ h

theorem login_user_aligned (o : AuthOracle) (w : World) (un pw : String)
    (h : pdfsDocxsAligned w) : pdfsDocxsAligned (login_user o w un pw).2 := by
  unfold pdfsDocxsAligned at *
  unfold login_user
  simp only []
  repeat' split
  all_goals exact h


/-- C10: in every reachable world the key set of the session's `pdfs`
registry equals the key set of its `docxs` registry: `generate_pdf` updates
both under the same key (the pdf filename) exactly on success, and no other
operation touches either registry except `logout`, which clears both. -/
theorem claim_C10 (w : World) (h : ReachableW w) :
    alKeys w.sess.pdfs = alKeys w.sess.docxs := by
  induction h with
  | init fs us now => rfl
  | step hr hs ih =>
      cases hs with
      | login o un pw => exact login_user_aligned o _ un pw ih
      | submit conv form files => exact generate_nda_aligned conv _ form files ih
      | teardown => rfl
      | indexForm d => exact ih
      | setAriba a => exact ih
      | freshOracles us now => exact ih

/-- C10 (witness): the invariant at a freshly started session. -/
theorem claim_C10_witness :
    alKeys ({ fs := [], sess := emptySession, uuids := ["u1"], nowStr := "t0",
                trace := [] } : World).sess.pdfs =
      alKeys ({ fs := [], sess := emptySession, uuids := ["u1"], nowStr := "t0",
                trace := [] } : World).sess.docxs :=
  claim_C10 _ (ReachableW.init [] ["u1"] "t0")


/-! ## C3: characterising `validate_date` -/

/-- C3 (counterexample): the claim requires a two-digit month and day and
says every other string is rejected, but `strptime`'s `%m`/`%d` regex
groups `1[0-2]|0[1-9]|[1-9]` and `3[01]|[12]\d|0[1-9]|[1-9]` also accept
unpadded one-digit values, so `"2024-1-1"` is accepted; a two-digit year is
indeed rejected. -/
theorem claim_C3_counterexample :
    validate_date "2024-1-1" = true ∧ validate_date "24-01-01" = false :=
  ⟨rfl, rfl⟩

theorem charLe_iff (a b : Char) : (a ≤ b) ↔ a.toNat ≤ b.toNat := Iff.rfl

theorem char_toNat_inj {a b : Char} (h : a.toNat = b.toNat) : a = b :=
  Char.eq_of_val_eq (UInt32.eq_of_val_eq (Fin.eq_of_val_eq h))

theorem isD_of_range {c : Char} (h1 : 48 ≤ c.toNat) (h2 : c.toNat ≤ 57) :
    isD c = true := by
  have hb : (decide ('0' ≤ c) && decide (c ≤ '9')) = true := by
    rw [Bool.and_eq_true, decide_eq_true_eq, decide_eq_true_eq]
    exact ⟨h1, h2⟩
  simpa [isD] using hb

theorem isD_range {c : Char} (h : isD c = true) : 48 ≤ c.toNat ∧ c.toNat ≤ 57 := by
  simp only [isD, Bool.and_eq_true, decide_eq_true_eq] at h
  exact ⟨h.1, h.2⟩

/-- Numeric value of a digit list, most significant first (the spec-side
reading of a matched group, `int(s)`). -/
def digitsToNat (cs : List Char) : Nat := cs.foldl (fun a c => a * 10 + dVal c) 0

theorem digitsToNat_one (a : Char) : digitsToNat [a] = dVal a := by
  simp [digitsToNat]

theorem digitsToNat_two (a b : Char) : digitsToNat [a, b] = 10 * dVal a + dVal b := by
  simp [digitsToNat]; ring

theorem digitsToNat_four (a b c d : Char) :
    digitsToNat [a, b, c, d] =
      ((dVal a * 10 + dVal b) * 10 + dVal c) * 10 + dVal d := by
  simp [digitsToNat]

theorem digitsToNat_lt (cs : List Char) (h : ∀ c ∈ cs, isD c = true) :
    digitsToNat cs < 10 ^ cs.length := by
  suffices H : ∀ acc, List.foldl (fun a c => a * 10 + dVal c) acc cs <
      (acc + 1) * 10 ^ cs.length by
    simpa [digitsToNat] using H 0
  induction cs with
  | nil => intro acc; simp
  | cons c t ih =>
      intro acc
      have hc := isD_range (h c (by simp))
      have hdv : dVal c ≤ 9 := by unfold dVal; omega
      have ht : ∀ x ∈ t, isD x = true := fun x hx => h x (by simp [hx])
      have step := (ih ht) (acc * 10 + dVal c)
      calc List.foldl (fun a c => a * 10 + dVal c) acc (c :: t)
          = List.foldl (fun a c => a * 10 + dVal c) (acc * 10 + dVal c) t := rfl
        _ < (acc * 10 + dVal c + 1) * 10 ^ t.length := step
        _ ≤ ((acc + 1) * 10) * 10 ^ t.length := by
            have : acc * 10 + dVal c + 1 ≤ (acc + 1) * 10 := by omega
            exact Nat.mul_le_mul_right _ this
        _ = (acc + 1) * 10 ^ (c :: t).length := by
            simp [List.length_cons, Nat.pow_succ]; ring


theorem tryDay_sound (l : List (Nat × List Char)) (d : Nat) (h : tryDay l = some d) :
    (d, ([] : List Char)) ∈ l := by
  induction l with
  | nil => simp [tryDay] at h
  | cons p t ih =>
      obtain ⟨dd, rest⟩ := p
      by_cases hr : rest = []
      · subst hr
        simp [tryDay] at h
        simp [h]
      · simp [tryDay, hr] at h
        exact List.mem_cons_of_mem _ (ih h)

theorem tryMonth_sound (y : Nat) (l : List (Nat × List Char))
    (res : Nat × Nat × Nat) (h : tryMonth y l = some res) :
    ∃ m rest2 d, res = (y, m, d) ∧ (m, '-' :: rest2) ∈ l ∧
      tryDay (dayCands rest2) = some d := by
  induction l with
  | nil => simp [tryMonth] at h
  | cons p t ih =>
      obtain ⟨mm, rest1⟩ := p
      rcases rest1 with _ | ⟨c, r2⟩
      · have hm : tryMonth y ((mm, ([] : List Char)) :: t) = tryMonth y t := by
          rw [tryMonth]
          simp
        rw [hm] at h
        obtain ⟨m, r2x, d, h1, h2, h3⟩ := ih h
        exact ⟨m, r2x, d, h1, List.mem_cons_of_mem _ h2, h3⟩
      · by_cases hc : c = '-'
        · subst hc
          rcases htd : tryDay (dayCands r2) with _ | dd
          · rw [tryMonth] at h
            simp only [htd] at h
            obtain ⟨m, r2x, d, h1, h2, h3⟩ := ih h
            exact ⟨m, r2x, d, h1, List.mem_cons_of_mem _ h2, h3⟩
          · rw [tryMonth] at h
            simp only [htd] at h
            injection h with h2
            exact ⟨mm, r2, dd, h2.symm, List.mem_cons_self _ _, htd⟩
        · have hm : tryMonth y ((mm, c :: r2) :: t) = tryMonth y t := by
            rw [tryMonth]
            intro r2x heqx
            have h12 : c = '-' ∧ r2 = r2x := by simpa using heqx
            exact hc h12.1
          rw [hm] at h
          obtain ⟨m, r2x, d, h1, h2, h3⟩ := ih h
          exact ⟨m, r2x, d, h1, List.mem_cons_of_mem _ h2, h3⟩


theorem monthCands_sound (rest : List Char) (m : Nat) (rest1 : List Char)
    (h : (m, rest1) ∈ monthCands rest) :
    ∃ ms, rest = ms ++ rest1 ∧ (∀ c ∈ ms, isD c = true) ∧
      1 ≤ ms.length ∧ ms.length ≤ 2 ∧ digitsToNat ms = m ∧ 1 ≤ m ∧ m ≤ 12 := by
  match rest with
  | [] => simp [monthCands] at h
  | [c0] =>
      simp only [monthCands] at h
      split at h
      · rename_i hcond
        simp only [Bool.and_eq_true, decide_eq_true_eq] at hcond
        have hn1 : 49 ≤ c0.toNat := hcond.1
        have hn2 : c0.toNat ≤ 57 := hcond.2
        simp only [List.mem_singleton, Prod.mk.injEq] at h
        obtain ⟨hm, hr⟩ := h
        subst hr
        subst hm
        refine ⟨[c0], by simp, ?_, by simp, by simp, ?_, ?_, ?_⟩
        · intro c hc; simp at hc; subst hc; exact isD_of_range (by omega) hn2
        · rw [digitsToNat_one]
        · unfold dVal; omega
        · unfold dVal; omega
      · simp at h
  | c0 :: c1 :: r =>
      rw [monthCands] at h
      rw [List.mem_append, List.mem_append] at h
      rcases h with (h | h) | h
      · split at h
        · rename_i hcond
          simp only [Bool.and_eq_true, decide_eq_true_eq] at hcond
          obtain ⟨hc0, hc1a, hc1b⟩ := hcond
          have hn1 : 48 ≤ c1.toNat := hc1a
          have hn2 : c1.toNat ≤ 50 := hc1b
          simp only [List.mem_singleton, Prod.mk.injEq] at h
          obtain ⟨hm, hr⟩ := h
          subst hr hc0
          subst hm
          refine ⟨['1', c1], by simp, ?_, by simp, by simp, ?_, ?_, ?_⟩
          · intro c hc
            simp at hc
            rcases hc with hc | hc <;> subst hc
            · decide
            · exact isD_of_range hn1 (by omega)
          · rw [digitsToNat_two]
            have : dVal '1' = 1 := rfl
            omega
          · unfold dVal; omega
          · unfold dVal
            have : Char.toNat '1' = 49 := rfl
            omega
        · simp at h
      · split at h
        · rename_i hcond
          simp only [Bool.and_eq_true, decide_eq_true_eq] at hcond
          obtain ⟨hc0, hc1a, hc1b⟩ := hcond
          have hn1 : 49 ≤ c1.toNat := hc1a
          have hn2 : c1.toNat ≤ 57 := hc1b
          simp only [List.mem_singleton, Prod.mk.injEq] at h
          obtain ⟨hm, hr⟩ := h
          subst hr hc0
          subst hm
          refine ⟨['0', c1], by simp, ?_, by simp, by simp, ?_, ?_, ?_⟩
          · intro c hc
            simp at hc
            rcases hc with hc | hc <;> subst hc
            · decide
            · exact isD_of_range (by omega) hn2
          · rw [digitsToNat_two]
            have : dVal '0' = 0 := rfl
            omega
          · unfold dVal; omega
          · unfold dVal
            have : Char.toNat '0' = 48 := rfl
            omega
        · simp at h
      · split at h
        · rename_i hcond
          simp only [Bool.and_eq_true, decide_eq_true_eq] at hcond
          have hn1 : 49 ≤ c0.toNat := hcond.1
          have hn2 : c0.toNat ≤ 57 := hcond.2
          simp only [List.mem_singleton, Prod.mk.injEq] at h
          obtain ⟨hm, hr⟩ := h
          subst hr
          subst hm
          refine ⟨[c0], by simp, ?_, by simp, by simp, ?_, ?_, ?_⟩
          · intro c hc; simp at hc; subst hc; exact isD_of_range (by omega) hn2
          · rw [digitsToNat_one]
          · unfold dVal; omega
          · unfold dVal; omega
        · simp at h


theorem dayCands_sound (rest : List Char) (d : Nat) (rest1 : List Char)
    (h : (d, rest1) ∈ dayCands rest) :
    ∃ ds, rest = ds ++ rest1 ∧ (∀ c ∈ ds, isD c = true) ∧
      1 ≤ ds.length ∧ ds.length ≤ 2 ∧ digitsToNat ds = d ∧ 1 ≤ d ∧ d ≤ 31 := by
  match rest with
  | [] => simp [dayCands] at h
  | [c0] =>
      simp only [dayCands] at h
      split at h
      · rename_i hcond
        simp only [Bool.and_eq_true, decide_eq_true_eq] at hcond
        have hn1 : 49 ≤ c0.toNat := hcond.1
        have hn2 : c0.toNat ≤ 57 := hcond.2
        simp only [List.mem_singleton, Prod.mk.injEq] at h
        obtain ⟨hm, hr⟩ := h
        subst hr
        subst hm
        refine ⟨[c0], by simp, ?_, by simp, by simp, ?_, ?_, ?_⟩
        · intro c hc; simp at hc; subst hc; exact isD_of_range (by omega) hn2
        · rw [digitsToNat_one]
        · unfold dVal; omega
        · unfold dVal; omega
      · simp at h
  | c0 :: c1 :: r =>
      rw [dayCands] at h
      rw [List.mem_append, List.mem_append, List.mem_append] at h
      rcases h with ((h | h) | h) | h
      · split at h
        · rename_i hcond
          simp only [Bool.and_eq_true, decide_eq_true_eq] at hcond
          obtain ⟨hc0, hc1a, hc1b⟩ := hcond
          have hn1 : 48 ≤ c1.toNat := hc1a
          have hn2 : c1.toNat ≤ 49 := hc1b
          simp only [List.mem_singleton, Prod.mk.injEq] at h
          obtain ⟨hm, hr⟩ := h
          subst hr hc0
          subst hm
          refine ⟨['3', c1], by simp, ?_, by simp, by simp, ?_, ?_, ?_⟩
          · intro c hc
            simp at hc
            rcases hc with hc | hc <;> subst hc
            · decide
            · exact isD_of_range hn1 (by omega)
          · rw [digitsToNat_two]
            have : dVal '3' = 3 := rfl
            omega
          · unfold dVal; omega
          · unfold dVal
            have : Char.toNat '3' = 51 := rfl
            omega
        · simp at h
      · split at h
        · rename_i hcond
          simp only [Bool.and_eq_true, decide_eq_true_eq] at hcond
          obtain ⟨⟨hc0a, hc0b⟩, hc1⟩ := hcond
          have hn0a : 49 ≤ c0.toNat := hc0a
          have hn0b : c0.toNat ≤ 50 := hc0b
          have hn1 := isD_range hc1
          simp only [List.mem_singleton, Prod.mk.injEq] at h
          obtain ⟨hm, hr⟩ := h
          subst hr
          subst hm
          refine ⟨[c0, c1], by simp, ?_, by simp, by simp, ?_, ?_, ?_⟩
          · intro c hc
            simp at hc
            rcases hc with hc | hc <;> subst hc
            · exact isD_of_range (by omega) (by omega)
            · exact hc1
          · rw [digitsToNat_two]
          · unfold dVal; omega
          · unfold dVal; omega
        · simp at h
      · split at h
        · rename_i hcond
          simp only [Bool.and_eq_true, decide_eq_true_eq] at hcond
          obtain ⟨hc0, hc1a, hc1b⟩ := hcond
          have hn1 : 49 ≤ c1.toNat := hc1a
          have hn2 : c1.toNat ≤ 57 := hc1b
          simp only [List.mem_singleton, Prod.mk.injEq] at h
          obtain ⟨hm, hr⟩ := h
          subst hr hc0
          subst hm
          refine ⟨['0', c1], by simp, ?_, by simp, by simp, ?_, ?_, ?_⟩
          · intro c hc
            simp at hc
            rcases hc with hc | hc <;> subst hc
            · decide
            · exact isD_of_range (by omega) hn2
          · rw [digitsToNat_two]
            have : dVal '0' = 0 := rfl
            omega
          · unfold dVal; omega
          · unfold dVal
            have : Char.toNat '0' = 48 := rfl
            omega
        · simp at h
      · split at h
        · rename_i hcond
          simp only [Bool.and_eq_true, decide_eq_true_eq] at hcond
          have hn1 : 49 ≤ c0.toNat := hcond.1
          have hn2 : c0.toNat ≤ 57 := hcond.2
          simp only [List.mem_singleton, Prod.mk.injEq] at h
          obtain ⟨hm, hr⟩ := h
          subst hr
          subst hm
          refine ⟨[c0], by simp, ?_, by simp, by simp, ?_, ?_, ?_⟩
          · intro c hc; simp at hc; subst hc; exact isD_of_range (by omega) hn2
          · rw [digitsToNat_one]
          · unfold dVal; omega
          · unfold dVal; omega
        · simp at h


theorem decChLe (a b : Char) (h : a.toNat ≤ b.toNat) : decide (a ≤ b) = true := by
  rw [decide_eq_true_eq]; exact h

theorem charConsts :
    ('0' : Char).toNat = 48 ∧ ('1' : Char).toNat = 49 ∧ ('2' : Char).toNat = 50 ∧
    ('3' : Char).toNat = 51 ∧ ('9' : Char).toNat = 57 := by
  refine ⟨rfl, rfl, rfl, rfl, rfl⟩

theorem dayCands_complete (ds : List Char)
    (hd : ∀ c ∈ ds, isD c = true) (h1 : 1 ≤ ds.length) (h2 : ds.length ≤ 2)
    (hv1 : 1 ≤ digitsToNat ds) (hv2 : digitsToNat ds ≤ 31) :
    tryDay (dayCands ds) = some (digitsToNat ds) := by
  rcases ds with _ | ⟨c0, _ | ⟨c1, _ | ⟨c2, t⟩⟩⟩
  · simp at h1
  · have hc := isD_range (hd c0 (by simp))
    rw [digitsToNat_one] at hv1 hv2 ⊢
    unfold dVal at hv1
    have e1 : decide ('1' ≤ c0) = true := decChLe _ _ (by obtain ⟨q0, q1, q2, q3, q9⟩ := charConsts; omega)
    have e2 : decide (c0 ≤ '9') = true := decChLe _ _ (by obtain ⟨q0, q1, q2, q3, q9⟩ := charConsts; omega)
    simp [dayCands, tryDay, e1, e2]
  · have hc0 := isD_range (hd c0 (by simp))
    have hc1 := isD_range (hd c1 (by simp))
    rw [digitsToNat_two] at hv1 hv2 ⊢
    have hd0 : dVal c0 ≤ 3 := by unfold dVal at *; omega
    have hcases : dVal c0 = 0 ∨ dVal c0 = 1 ∨ dVal c0 = 2 ∨ dVal c0 = 3 := by omega
    rcases hcases with h0 | h0 | h0 | h0
    · have hc0e : c0 = '0' := char_toNat_inj (show c0.toNat = 48 by unfold dVal at h0; omega)
      subst hc0e
      have e1 : decide ('1' ≤ c1) = true := decChLe _ _ (by obtain ⟨q0, q1, q2, q3, q9⟩ := charConsts; unfold dVal at *; omega)
      have e2 : decide (c1 ≤ '9') = true := decChLe _ _ (by obtain ⟨q0, q1, q2, q3, q9⟩ := charConsts; omega)
      have hz : dVal '0' = 0 := rfl
      simp [dayCands, tryDay, e1, e2, hz]
    · have hc0e : c0 = '1' := char_toNat_inj (show c0.toNat = 49 by unfold dVal at h0; omega)
      subst hc0e
      have e0 : isD c1 = true := hd c1 (by simp)
      simp [dayCands, tryDay, e0]
    · have hc0e : c0 = '2' := char_toNat_inj (show c0.toNat = 50 by unfold dVal at h0; omega)
      subst hc0e
      have e0 : isD c1 = true := hd c1 (by simp)
      simp [dayCands, tryDay, e0]
    · have hc0e : c0 = '3' := char_toNat_inj (show c0.toNat = 51 by unfold dVal at h0; omega)
      subst hc0e
      have h3 : dVal '3' = 3 := rfl
      have e1 : decide ('0' ≤ c1) = true := decChLe _ _ (by obtain ⟨q0, q1, q2, q3, q9⟩ := charConsts; omega)
      have e2 : decide (c1 ≤ '1') = true := decChLe _ _ (by obtain ⟨q0, q1, q2, q3, q9⟩ := charConsts; unfold dVal at *; omega)
      simp [dayCands, tryDay, e1, e2, h3]
  · simp at h2

theorem tryMonth_complete (y : Nat) (ms ds : List Char)
    (hmd : ∀ c ∈ ms, isD c = true) (hl1 : 1 ≤ ms.length) (hl2 : ms.length ≤ 2)
    (hv1 : 1 ≤ digitsToNat ms) (hv2 : digitsToNat ms ≤ 12)
    (hday : tryDay (dayCands ds) = some (digitsToNat ds)) :
    tryMonth y (monthCands (ms ++ '-' :: ds)) =
      some (y, digitsToNat ms, digitsToNat ds) := by
  rcases ms with _ | ⟨m0, _ | ⟨m1, _ | ⟨m2, t⟩⟩⟩
  · simp at hl1
  · have hc := isD_range (hmd m0 (by simp))
    rw [digitsToNat_one] at hv1 hv2 ⊢
    unfold dVal at hv1
    have e1 : decide ('1' ≤ m0) = true := decChLe _ _ (by obtain ⟨q0, q1, q2, q3, q9⟩ := charConsts; omega)
    have e2 : decide (m0 ≤ '9') = true := decChLe _ _ (by obtain ⟨q0, q1, q2, q3, q9⟩ := charConsts; omega)
    simp [monthCands, tryMonth, e1, e2, hday]
  · have hc0 := isD_range (hmd m0 (by simp))
    have hc1 := isD_range (hmd m1 (by simp))
    rw [digitsToNat_two] at hv1 hv2 ⊢
    have hd0 : dVal m0 ≤ 1 := by unfold dVal at *; omega
    have hcases : dVal m0 = 0 ∨ dVal m0 = 1 := by omega
    rcases hcases with h0 | h0
    · have hc0e : m0 = '0' := char_toNat_inj (show m0.toNat = 48 by unfold dVal at h0; omega)
      subst hc0e
      have hz : dVal '0' = 0 := rfl
      have e1 : decide ('1' ≤ m1) = true := decChLe _ _ (by obtain ⟨q0, q1, q2, q3, q9⟩ := charConsts; unfold dVal at *; omega)
      have e2 : decide (m1 ≤ '9') = true := decChLe _ _ (by obtain ⟨q0, q1, q2, q3, q9⟩ := charConsts; omega)
      simp [monthCands, tryMonth, e1, e2, hz, hday]
    · have hc0e : m0 = '1' := char_toNat_inj (show m0.toNat = 49 by unfold dVal at h0; omega)
      subst hc0e
      have ho : dVal '1' = 1 := rfl
      have e1 : decide ('0' ≤ m1) = true := decChLe _ _ (by obtain ⟨q0, q1, q2, q3, q9⟩ := charConsts; omega)
      have e2 : decide (m1 ≤ '2') = true := decChLe _ _ (by obtain ⟨q0, q1, q2, q3, q9⟩ := charConsts; unfold dVal at *; omega)
      simp [monthCands, tryMonth, e1, e2, ho, hday]
  · simp at hl2


theorem daysInMonth_le (y m : Nat) : daysInMonth y m ≤ 31 := by
  unfold daysInMonth
  repeat' split
  all_goals omega

theorem strptimeYMD_sound (cs : List Char) (y m d : Nat)
    (h : strptimeYMD cs = some (y, m, d)) :
    ∃ ys ms ds, cs = ys ++ '-' :: (ms ++ '-' :: ds) ∧
      ys.length = 4 ∧ (∀ c ∈ ys, isD c = true) ∧ digitsToNat ys = y ∧
      1 ≤ ms.length ∧ ms.length ≤ 2 ∧ (∀ c ∈ ms, isD c = true) ∧ digitsToNat ms = m ∧
      1 ≤ m ∧ m ≤ 12 ∧
      1 ≤ ds.length ∧ ds.length ≤ 2 ∧ (∀ c ∈ ds, isD c = true) ∧ digitsToNat ds = d ∧
      1 ≤ d ∧ d ≤ 31 := by
  rcases cs with _ | ⟨a, _ | ⟨b, _ | ⟨c, _ | ⟨d4, _ | ⟨e, rest⟩⟩⟩⟩⟩
  · simp [strptimeYMD] at h
  · simp [strptimeYMD] at h
  · simp [strptimeYMD] at h
  · simp [strptimeYMD] at h
  · simp [strptimeYMD] at h
  · simp only [strptimeYMD] at h
    split at h
    · rename_i hg
      simp only [Bool.and_eq_true, decide_eq_true_eq] at hg
      obtain ⟨⟨⟨⟨ha, hb⟩, hc⟩, hd4⟩, he⟩ := hg
      subst he
      obtain ⟨m', rest2, d', hres, hmem, hday⟩ := tryMonth_sound _ _ _ h
      simp only [Prod.mk.injEq] at hres
      obtain ⟨hyv, hmv, hdv⟩ := hres
      obtain ⟨ms, hrest, hmsd, hml1, hml2, hmsv, hm1, hm12⟩ :=
        monthCands_sound _ _ _ hmem
      obtain ⟨ds, hrest2, hdsd, hdl1, hdl2, hdsv, hd1', hd31⟩ :=
        dayCands_sound _ _ _ (tryDay_sound _ _ hday)
      rw [List.append_nil] at hrest2
      refine ⟨[a, b, c, d4], ms, ds, ?_, rfl, ?_, ?_, hml1, hml2, hmsd, ?_, ?_, ?_,
        hdl1, hdl2, hdsd, ?_, ?_, ?_⟩
      · rw [hrest, hrest2]; simp
      · intro x hx
        simp at hx
        rcases hx with hx | hx | hx | hx <;> subst hx <;> assumption
      · rw [digitsToNat_four, hyv]
      · rw [hmsv, hmv]
      · omega
      · omega
      · rw [hdsv, hdv]
      · omega
      · omega
    · exact absurd h (by simp)

theorem strptimeYMD_complete (ys ms ds : List Char)
    (hy4 : ys.length = 4) (hyd : ∀ c ∈ ys, isD c = true)
    (hml1 : 1 ≤ ms.length) (hml2 : ms.length ≤ 2) (hmd : ∀ c ∈ ms, isD c = true)
    (hm1 : 1 ≤ digitsToNat ms) (hm12 : digitsToNat ms ≤ 12)
    (hdl1 : 1 ≤ ds.length) (hdl2 : ds.length ≤ 2) (hdd : ∀ c ∈ ds, isD c = true)
    (hd1 : 1 ≤ digitsToNat ds) (hd31 : digitsToNat ds ≤ 31) :
    strptimeYMD (ys ++ '-' :: (ms ++ '-' :: ds)) =
      some (digitsToNat ys, digitsToNat ms, digitsToNat ds) := by
  obtain ⟨a, b, c, d4, rfl⟩ : ∃ a b c d4, ys = [a, b, c, d4] := by
    rcases ys with _ | ⟨a, _ | ⟨b, _ | ⟨c, _ | ⟨d4, _ | ⟨x, t⟩⟩⟩⟩⟩
    · simp at hy4
    · simp at hy4
    · simp at hy4
    · simp at hy4
    · exact ⟨a, b, c, d4, rfl⟩
    · simp [List.length_cons] at hy4
  have e1 : isD a = true := hyd a (by simp)
  have e2 : isD b = true := hyd b (by simp)
  have e3 : isD c = true := hyd c (by simp)
  have e4 : isD d4 = true := hyd d4 (by simp)
  have hday : tryDay (dayCands ds) = some (digitsToNat ds) :=
    dayCands_complete ds hdd hdl1 hdl2 hd1 hd31
  have htm := tryMonth_complete
    (((dVal a * 10 + dVal b) * 10 + dVal c) * 10 + dVal d4)
    ms ds hmd hml1 hml2 hm1 hm12 hday
  have hshape : ([a, b, c, d4] ++ '-' :: (ms ++ '-' :: ds)) =
      a :: b :: c :: d4 :: '-' :: (ms ++ '-' :: ds) := by simp
  rw [hshape]
  simp only [strptimeYMD, e1, e2, e3, e4, Bool.and_true, Bool.true_and,
    decide_eq_true_eq, if_true]
  rw [htm, digitsToNat_four]

/-- The amended date format: exactly four ASCII digits for the year, a
hyphen, one-or-two digits for the month, a hyphen, one-or-two digits for
the day, nothing else; the month in 1..12, the day within the month's
length for that (proleptic Gregorian) year, and the year at least 1. -/
def specYMDFormat (s : String) : Prop :=
  ∃ ys ms ds : List Char,
    s.data = ys ++ '-' :: (ms ++ '-' :: ds) ∧
    ys.length = 4 ∧ (∀ c ∈ ys, isD c = true) ∧
    1 ≤ ms.length ∧ ms.length ≤ 2 ∧ (∀ c ∈ ms, isD c = true) ∧
    1 ≤ ds.length ∧ ds.length ≤ 2 ∧ (∀ c ∈ ds, isD c = true) ∧
    1 ≤ digitsToNat ys ∧
    1 ≤ digitsToNat ms ∧ digitsToNat ms ≤ 12 ∧
    1 ≤ digitsToNat ds ∧
    digitsToNat ds ≤ daysInMonth (digitsToNat ys) (digitsToNat ms)

/-- C3 (amended): `validate_date` accepts exactly the strings
`YYYY-M[M]-D[D]`: a four-digit year at least `0001`, a month `1..12` and a
day valid for that month and (proleptic Gregorian) year, where the month
and the day may be written with one digit or zero-padded to two (the
`strptime` `%m`/`%d` groups accept both); every other ASCII string — wrong
separator, two-digit year, five-digit year, out-of-range or non-numeric
components, trailing garbage, the empty string — is rejected, and no error
is thrown (total Boolean result). -/
theorem claim_C3 (s : String) : validate_date s = true ↔ specYMDFormat s := by
  constructor
  · intro h
    unfold validate_date at h
    rcases hp : strptimeYMD s.data with _ | ⟨y, m, d⟩
    · rw [hp] at h; simp at h
    · rw [hp] at h
      simp only [datetimeValid, Bool.and_eq_true, decide_eq_true_eq] at h
      obtain ⟨⟨⟨⟨⟨hy1, hy2⟩, hm1⟩, hm2⟩, hd1⟩, hd2⟩ := h
      obtain ⟨ys, ms, ds, hse, hy4, hyd, hyv, hml1, hml2, hmd, hmv, _, _,
        hdl1, hdl2, hdd, hdv, _, _⟩ := strptimeYMD_sound _ _ _ _ hp
      exact ⟨ys, ms, ds, hse, hy4, hyd, hml1, hml2, hmd, hdl1, hdl2, hdd,
        by rw [hyv]; exact hy1,
        by rw [hmv]; exact hm1,
        by rw [hmv]; exact hm2,
        by rw [hdv]; exact hd1,
        by rw [hyv, hmv, hdv]; exact hd2⟩
  · rintro ⟨ys, ms, ds, hse, hy4, hyd, hml1, hml2, hmd, hdl1, hdl2, hdd,
      hy1, hm1, hm12, hd1, hdm⟩
    have hd31 : digitsToNat ds ≤ 31 :=
      le_trans hdm (daysInMonth_le _ _)
    have hy9999 : digitsToNat ys ≤ 9999 := by
      have := digitsToNat_lt ys hyd
      rw [hy4] at this
      omega
    unfold validate_date
    rw [hse, strptimeYMD_complete ys ms ds hy4 hyd hml1 hml2 hmd hm1 hm12
      hdl1 hdl2 hdd hd1 hd31]
    simp only [datetimeValid, Bool.and_eq_true, decide_eq_true_eq]
    exact ⟨⟨⟨⟨⟨hy1, hy9999⟩, hm1⟩, hm12⟩, hd1⟩, hdm⟩

/-- C3 (witness): the characterisation applied at `"2024-1-1"`. -/
theorem claim_C3_witness : specYMDFormat "2024-1-1" :=
  (claim_C3 "2024-1-1").mp rfl

end MSA
